import Mathlib

/-!
Verification of the RxView enhancement pipeline (drug.service.ts,
openai.service.ts, mcp.service.ts) against its natural-language
specification, via a shallow embedding in Lean 4.

Machine integers do not occur on the verified paths; strings are Lean
`String`s; the asynchronous methods are embedded as pure state-passing
functions over an explicit cache value, with the external model provider
and the external JSON parser supplied as oracle parameters.
-/

namespace RxView

/-! ## String helpers mirroring the JavaScript idioms used by the source -/

/-- `s.toLowerCase()`, embedded over the character list so that concrete
runs reduce in the kernel (ASCII case mapping). -/
def jsToLower (s : String) : String :=
  String.mk (s.data.map Char.toLower)

/-- `s.trim()`, embedded over the character list: strip leading and
trailing whitespace. -/
def jsTrim (s : String) : String :=
  String.mk (((s.data.dropWhile Char.isWhitespace).reverse.dropWhile
    Char.isWhitespace).reverse)

/-- `s.replace` with the global hyphen regex: every hyphen becomes a space. -/
def hyphensToSpaces (s : String) : String :=
  String.mk (s.data.map (fun c => if c = '-' then ' ' else c))

/-- `a.includes(b)` on JavaScript strings: substring containment. -/
def jsIncludes (s sub : String) : Bool :=
  decide (sub.toList <:+: s.toList)

/-- One step of `replace(/\s+/g, '-')`: each maximal whitespace run
collapses to a single hyphen. -/
def squashWhitespace : List Char → List Char
  | [] => []
  | c :: rest =>
    if c.isWhitespace then
      match rest with
      | c2 :: _ => if c2.isWhitespace then squashWhitespace rest
                   else '-' :: squashWhitespace rest
      | [] => ['-']
    else c :: squashWhitespace rest

/-- `createSlug` from drug.service.ts: lower-case, drop characters outside
`[\w\s-]`, collapse whitespace runs to `-`, trim. -/
def createSlug (text : String) : String :=
  let lowered := jsToLower text
  let cleaned := lowered.toList.filter
    (fun c => c.isAlphanum || c = '_' || c.isWhitespace || c = '-')
  jsTrim (String.mk (squashWhitespace cleaned))

/-! ## Data model (drug-label.interface.ts, mirrored by rxfrontend/src/lib/types.ts) -/

/-- The `label` sub-object of a `DrugLabel`. Optional prose fields are
`Option String` (absent = `undefined`). -/
structure Label where
  genericName : String
  labelerName : String
  productType : String
  effectiveTime : String
  title : String
  indicationsAndUsage : Option String
  dosageAndAdministration : Option String
  dosageFormsAndStrengths : Option String
  warningsAndPrecautions : Option String
  adverseReactions : Option String
  clinicalPharmacology : Option String
  clinicalStudies : Option String
  howSupplied : Option String
  useInSpecificPopulations : Option String
  description : Option String
  nonclinicalToxicology : Option String
  instructionsForUse : Option String
  contraindications : Option String
  drugInteractions : Option String
  overdosage : Option String
  references : Option String
  patientCounselingInformation : Option String
deriving DecidableEq, Repr

structure DrugLabel where
  drugName : String
  setId : String
  slug : String
  labeler : String
  label : Label
deriving DecidableEq, Repr

/-- A derived section of a drug record (DrugSection). -/
structure DrugSection where
  id : String
  title : String
  content : String
  enhancedContent : Option String
  order : Nat
deriving DecidableEq, Repr

/-- The aggregate produced by the Enhancement Orchestrator
(EnhancedDrugContent); `lastUpdated` is an abstract timestamp. -/
structure EnhancedDrugContent where
  id : String
  drugName : String
  genericName : String
  slug : String
  seoTitle : String
  metaDescription : String
  enhancedSummary : String
  sections : List DrugSection
  lastUpdated : Nat
deriving DecidableEq, Repr

/-! ## Basic Content Assembler (buildDrugSections, drug.service.ts:226-258) -/

/-- `drug.label[key]` for the twelve section keys used by
`buildDrugSections`; unknown keys read as absent. -/
def labelField (l : Label) : String → Option String
  | "indicationsAndUsage" => l.indicationsAndUsage
  | "dosageAndAdministration" => l.dosageAndAdministration
  | "dosageFormsAndStrengths" => l.dosageFormsAndStrengths
  | "warningsAndPrecautions" => l.warningsAndPrecautions
  | "adverseReactions" => l.adverseReactions
  | "clinicalPharmacology" => l.clinicalPharmacology
  | "clinicalStudies" => l.clinicalStudies
  | "howSupplied" => l.howSupplied
  | "useInSpecificPopulations" => l.useInSpecificPopulations
  | "description" => l.description
  | "nonclinicalToxicology" => l.nonclinicalToxicology
  | "instructionsForUse" => l.instructionsForUse
  | _ => none

/-- The fixed ordered (field-key, title) table of `buildDrugSections`. -/
def sectionMappings : List (String × String) :=
  [("indicationsAndUsage", "Indications and Usage"),
   ("dosageAndAdministration", "Dosage and Administration"),
   ("dosageFormsAndStrengths", "Dosage Forms and Strengths"),
   ("warningsAndPrecautions", "Warnings and Precautions"),
   ("adverseReactions", "Adverse Reactions"),
   ("clinicalPharmacology", "Clinical Pharmacology"),
   ("clinicalStudies", "Clinical Studies"),
   ("howSupplied", "How Supplied/Storage and Handling"),
   ("useInSpecificPopulations", "Use in Specific Populations"),
   ("description", "Description"),
   ("nonclinicalToxicology", "Nonclinical Toxicology"),
   ("instructionsForUse", "Instructions for Use")]

/-- `content && typeof content === 'string'`: the field is present and a
non-empty string. -/
def fieldPopulated (l : Label) (key : String) : Bool :=
  match labelField l key with
  | some c => c != ""
  | none => false

/-- The `forEach` loop of `buildDrugSections` with its mutable 1-based
`order` counter made an explicit argument. -/
def buildDrugSectionsAux (drug : DrugLabel) :
    List (String × String) → Nat → List DrugSection
  | [], _ => []
  | (key, title) :: rest, order =>
    match labelField drug.label key with
    | some content =>
      if content != "" then
        { id := drug.setId ++ "-" ++ key, title := title, content := content,
          enhancedContent := none, order := order }
        :: buildDrugSectionsAux drug rest (order + 1)
      else buildDrugSectionsAux drug rest order
    | none => buildDrugSectionsAux drug rest order

/-- `buildDrugSections(drug)` from drug.service.ts. -/
def buildDrugSections (drug : DrugLabel) : List DrugSection :=
  buildDrugSectionsAux drug sectionMappings 1

/-! ## Content Cache -/

/-- SEO metadata returned by `generateSEOMetadata`. -/
structure SEOMetadata where
  title : String
  description : String
deriving DecidableEq, Repr

/-- The typed payloads this core stores in the cache, one constructor per
key namespace. -/
inductive CacheValue where
  | seoMeta (m : SEOMetadata)
  | summary (s : String)
  | sectionMap (m : List (String × String))
  | sectionList (l : List DrugSection)
  | content (c : EnhancedDrugContent)
deriving DecidableEq, Repr

structure CacheEntry where
  key : String
  value : CacheValue
  ttlSeconds : Nat
deriving DecidableEq, Repr

/-- Modelled from the spec: `cache.service.ts` is not under `src/`; §4.1
fixes its contract to `get(key) -> value or absent` and
`set(key, value, ttlSeconds) -> void`, with get/set failures degrading to
cache misses. The cache is a key/value list where `set` shadows earlier
entries; TTL expiry is recorded but not modelled (no claim depends on the
passage of time). -/
abbrev Cache := List CacheEntry

/-- Modelled from the spec: `get(key) -> value or absent` (§4.1). -/
def cacheGet (c : Cache) (key : String) : Option CacheValue :=
  (c.find? (fun e => e.key == key)).map (fun e => e.value)

/-- Modelled from the spec: `set(key, value, ttlSeconds)` (§4.1). -/
def cacheSet (c : Cache) (key : String) (v : CacheValue) (ttl : Nat) : Cache :=
  ⟨key, v, ttl⟩ :: c

/-- `get<{title,description}>(key)` as used by `generateSEOMetadata`. -/
def lookupSeo (c : Cache) (key : String) : Option SEOMetadata :=
  match cacheGet c key with
  | some (.seoMeta m) => some m
  | _ => none

/-- `get<string>(key)` as used by `generateDrugSummary`; a cached empty
string is falsy in `if (cached)` and therefore treated as a miss. -/
def lookupSummary (c : Cache) (key : String) : Option String :=
  match cacheGet c key with
  | some (.summary s) => if s = "" then none else some s
  | _ => none

/-- `get<Partial<label>>(key)` as used by `enhanceAllSections`. -/
def lookupSectionMap (c : Cache) (key : String) : Option (List (String × String)) :=
  match cacheGet c key with
  | some (.sectionMap m) => some m
  | _ => none

/-- `get<DrugSection[]>(key)` as used by `enhanceAllSectionsAtOnce`. -/
def lookupSectionList (c : Cache) (key : String) : Option (List DrugSection) :=
  match cacheGet c key with
  | some (.sectionList l) => some l
  | _ => none

/-- `get<EnhancedDrugContent>(key)` as used by `getEnhancedContent`. -/
def lookupContent (c : Cache) (key : String) : Option EnhancedDrugContent :=
  match cacheGet c key with
  | some (.content e) => some e
  | _ => none

/-! ## Model Gateway (OpenAIService) retry machinery -/

/-- An error signalled by the provider or thrown inside an operation;
`rateLimit` is `error.status === 429 || error.code === 'rate_limit_exceeded'`. -/
structure GwErr where
  rateLimit : Bool
  msg : String
deriving DecidableEq, Repr

/-- Decidable equality for `Except`, used to evaluate concrete runs. -/
def exceptDecEq {ε α : Type} [DecidableEq ε] [DecidableEq α] :
    DecidableEq (Except ε α)
  | .error a, .error b =>
    if h : a = b then .isTrue (by rw [h])
    else .isFalse (fun hc => h (Except.error.inj hc))
  | .error _, .ok _ => .isFalse (fun hc => Except.noConfusion hc)
  | .ok _, .error _ => .isFalse (fun hc => Except.noConfusion hc)
  | .ok a, .ok b =>
    if h : a = b then .isTrue (by rw [h])
    else .isFalse (fun hc => h (Except.ok.inj hc))

instance {ε α : Type} [DecidableEq ε] [DecidableEq α] :
    DecidableEq (Except ε α) := exceptDecEq

/-- `private readonly maxRetries = 3`. -/
def maxRetries : Nat := 3

/-- `private readonly baseDelay = 1000`. -/
def baseDelay : Nat := 1000

/-- The observable outcome of a retried operation: the value returned or
error thrown, the final state, the number of attempts made, and the sleep
delays (ms) taken between attempts. -/
structure RetryTrace (σ T : Type) where
  result : Except GwErr T
  state : σ
  attempts : Nat
  delays : List Nat

/-- `callOpenAIWithRetry` (openai.service.ts:257-284). The operation `op`
is the retried closure: it receives the attempt number and the current
state (the cache it may write) and either returns a value or throws. -/
def callOpenAIWithRetry {σ T : Type} (op : Nat → σ → Except GwErr T × σ)
    (attempt : Nat) (s : σ) : RetryTrace σ T :=
  match op attempt s with
  | (.ok v, s') => ⟨.ok v, s', 1, []⟩
  | (.error e, s') =>
    if attempt ≥ maxRetries then ⟨.error e, s', 1, []⟩
    else
      let delay := if e.rateLimit then baseDelay * 2 ^ (attempt - 1) else 500
      let r := callOpenAIWithRetry op (attempt + 1) s'
      ⟨r.result, r.state, r.attempts + 1, delay :: r.delays⟩
termination_by maxRetries - attempt
decreasing_by simp [maxRetries] at *; omega

/-- The delay slept before the retry following a failed attempt:
exponential (1s base) on a rate-limit error, a fixed 500ms otherwise. -/
def retryDelay (e : GwErr) (attempt : Nat) : Nat :=
  if e.rateLimit then baseDelay * 2 ^ (attempt - 1) else 500

/-- Structural twin of `callOpenAIWithRetry` with the remaining retry
budget (`maxRetries - attempt`) as explicit fuel; proved equal to it in
`callOpenAIWithRetry_eq_go`, and used to evaluate concrete runs. -/
def retryGo {σ T : Type} (op : Nat → σ → Except GwErr T × σ) :
    Nat → Nat → σ → RetryTrace σ T
  | fuel, attempt, s =>
    match op attempt s with
    | (.ok v, s') => ⟨.ok v, s', 1, []⟩
    | (.error e, s') =>
      match fuel with
      | 0 => ⟨.error e, s', 1, []⟩
      | fuel' + 1 =>
        let r := retryGo op fuel' (attempt + 1) s'
        ⟨r.result, r.state, r.attempts + 1, retryDelay e attempt :: r.delays⟩

/-! ## Model Gateway operations (OpenAIService)

The external provider is an oracle giving the outcome of each attempt
(`Nat → Except GwErr …`): either a thrown provider error or the returned
completion content (`Option String`, `none` = missing content;
`enhanceAllSections` reads `response.output_text`, a `String`). The
external `JSON.parse`-and-shape step is likewise an oracle
(`String → Option …`, `none` = unparseable). Prompt construction
(including `stripHtml` and truncation) only feeds the oracle's input and
is not modelled. -/

/-- The provider client and parser environment of one `OpenAIService`
instance; `hasKey` is whether `this.openai` was constructed. -/
structure GatewayEnv where
  hasKey : Bool
  provSeo : Nat → Except GwErr (Option String)
  provSum : Nat → Except GwErr (Option String)
  provSec : Nat → Except GwErr String
  parseSEO : String → Option SEOMetadata
  parseMap : String → Option (List (String × String))

def seoKey (drug : DrugLabel) : String := "seo_metadata:" ++ drug.setId
def summaryKey (drug : DrugLabel) : String := "drug_summary:" ++ drug.setId
def sectionsKey (drug : DrugLabel) : String := "enhanced_sections:" ++ drug.setId
def allSectionsKey (drug : DrugLabel) : String := "enhanced_all_sections:" ++ drug.setId
def contentKey (drug : DrugLabel) : String := "enhanced_content:" ++ drug.setId

/-- `getFallbackSEOMetadata` (openai.service.ts). -/
def getFallbackSEOMetadata (drug : DrugLabel) : SEOMetadata :=
  { title := drug.drugName ++ " (" ++ drug.label.genericName ++ ") - Prescription Info",
    description := "Complete prescribing information for " ++ drug.drugName
      ++ " (" ++ drug.label.genericName ++ ") by " ++ drug.labeler
      ++ ". Dosage, side effects, warnings & more." }

/-- `getFallbackSummary` (openai.service.ts). -/
def getFallbackSummary (drug : DrugLabel) : String :=
  drug.drugName ++ " is a prescription medication containing the active ingredient "
    ++ drug.label.genericName ++ ", manufactured by " ++ drug.labeler ++ "."

/-- `throw new Error('No response from OpenAI')`: a plain error, no
rate-limit status. -/
def noResponseErr : GwErr := ⟨false, "No response from OpenAI"⟩

/-- The `SyntaxError` thrown by `JSON.parse` on malformed input: a plain
error, no rate-limit status. -/
def parseFailErr : GwErr := ⟨false, "Unexpected token in JSON"⟩

/-- The retried closure of `generateSEOMetadata`: call the provider,
throw on missing content, parse the JSON, cache and return the parsed
result, or return the deterministic fallback on a parse failure. -/
def seoOp (env : GatewayEnv) (drug : DrugLabel) :
    Nat → Cache → Except GwErr SEOMetadata × Cache :=
  fun attempt c =>
    match env.provSeo attempt with
    | .error e => (.error e, c)
    | .ok none => (.error noResponseErr, c)
    | .ok (some response) =>
      match env.parseSEO response with
      | some result => (.ok result, cacheSet c (seoKey drug) (.seoMeta result) 86400)
      | none => (.ok (getFallbackSEOMetadata drug), c)

/-- `generateSEOMetadata` (openai.service.ts:30-67). -/
def generateSEOMetadata (env : GatewayEnv) (drug : DrugLabel) (c : Cache) :
    RetryTrace Cache SEOMetadata :=
  if !env.hasKey then ⟨.ok (getFallbackSEOMetadata drug), c, 0, []⟩
  else
    match lookupSeo c (seoKey drug) with
    | some cached => ⟨.ok cached, c, 0, []⟩
    | none => callOpenAIWithRetry (seoOp env drug) 1 c

/-- The retried closure of `generateDrugSummary`: trim the provider's
content, substitute the fallback when it is missing or empty, cache the
chosen summary and return it. -/
def summaryOp (env : GatewayEnv) (drug : DrugLabel) :
    Nat → Cache → Except GwErr String × Cache :=
  fun attempt c =>
    match env.provSum attempt with
    | .error e => (.error e, c)
    | .ok respOpt =>
      let response := respOpt.map jsTrim
      let summary :=
        match response with
        | some s => if s = "" then getFallbackSummary drug else s
        | none => getFallbackSummary drug
      (.ok summary, cacheSet c (summaryKey drug) (.summary summary) 86400)

/-- `generateDrugSummary` (openai.service.ts:69-98). -/
def generateDrugSummary (env : GatewayEnv) (drug : DrugLabel) (c : Cache) :
    RetryTrace Cache String :=
  if !env.hasKey then ⟨.ok (getFallbackSummary drug), c, 0, []⟩
  else
    match lookupSummary c (summaryKey drug) with
    | some cached => ⟨.ok cached, c, 0, []⟩
    | none => callOpenAIWithRetry (summaryOp env drug) 1 c

/-- The `sectionsToEnhance` object of `enhanceAllSections`: the twelve
named label fields, in source order. -/
def sectionsToEnhance (drug : DrugLabel) : List (String × Option String) :=
  [("indicationsAndUsage", drug.label.indicationsAndUsage),
   ("dosageAndAdministration", drug.label.dosageAndAdministration),
   ("dosageFormsAndStrengths", drug.label.dosageFormsAndStrengths),
   ("warningsAndPrecautions", drug.label.warningsAndPrecautions),
   ("adverseReactions", drug.label.adverseReactions),
   ("clinicalPharmacology", drug.label.clinicalPharmacology),
   ("clinicalStudies", drug.label.clinicalStudies),
   ("howSupplied", drug.label.howSupplied),
   ("useInSpecificPopulations", drug.label.useInSpecificPopulations),
   ("description", drug.label.description),
   ("nonclinicalToxicology", drug.label.nonclinicalToxicology),
   ("instructionsForUse", drug.label.instructionsForUse)]

/-- The keys of `availableSections`: fields that are present and whose
content is truthy with a truthy trim (`content && content.trim()`). The
values only feed the prompt, which is not modelled. -/
def availableSectionKeys (drug : DrugLabel) : List String :=
  ((sectionsToEnhance drug).filter
    (fun p => match p.2 with
      | some content => content != "" && jsTrim content != ""
      | none => false)).map (fun p => p.1)

/-- The retried closure of `enhanceAllSections`: call the provider with
the schema-constrained request, `JSON.parse` its `output_text` (a parse
failure throws out of the closure), cache and return the parsed map. -/
def sectionsOp (env : GatewayEnv) (drug : DrugLabel) :
    Nat → Cache → Except GwErr (List (String × String)) × Cache :=
  fun attempt c =>
    match env.provSec attempt with
    | .error e => (.error e, c)
    | .ok outputText =>
      match env.parseMap outputText with
      | none => (.error parseFailErr, c)
      | some result =>
        (.ok result, cacheSet c (sectionsKey drug) (.sectionMap result) 86400)

/-- `enhanceAllSections` (openai.service.ts:100-220). -/
def enhanceAllSections (env : GatewayEnv) (drug : DrugLabel) (c : Cache) :
    RetryTrace Cache (List (String × String)) :=
  if !env.hasKey then ⟨.ok [], c, 0, []⟩
  else
    match lookupSectionMap c (sectionsKey drug) with
    | some cached => ⟨.ok cached, c, 0, []⟩
    | none =>
      if (availableSectionKeys drug).isEmpty then ⟨.ok [], c, 0, []⟩
      else callOpenAIWithRetry (sectionsOp env drug) 1 c

/-! ## Enhancement Orchestrator (DrugService) -/

/-- The reverse title-to-key table `getSectionKeyFromTitle` consults. -/
def titleMappings : List (String × String) :=
  [("Indications and Usage", "indicationsAndUsage"),
   ("Dosage and Administration", "dosageAndAdministration"),
   ("Dosage Forms and Strengths", "dosageFormsAndStrengths"),
   ("Warnings and Precautions", "warningsAndPrecautions"),
   ("Adverse Reactions", "adverseReactions"),
   ("Clinical Pharmacology", "clinicalPharmacology"),
   ("Clinical Studies", "clinicalStudies"),
   ("How Supplied/Storage and Handling", "howSupplied"),
   ("Use in Specific Populations", "useInSpecificPopulations"),
   ("Description", "description"),
   ("Nonclinical Toxicology", "nonclinicalToxicology"),
   ("Instructions for Use", "instructionsForUse")]

/-- `getSectionKeyFromTitle` (drug.service.ts:311-327); unknown titles
map to the empty string. -/
def getSectionKeyFromTitle (title : String) : String :=
  (titleMappings.lookup title).getD ""

/-- `enhanceAllSectionsAtOnce` (drug.service.ts:280-309): consult the
`enhanced_all_sections` cache, else run the batched enhancement; on its
failure fall back to the unenhanced sections (the catch block), on
success attach `enhancedContent || undefined` per section and cache the
enhanced list. -/
def enhanceAllSectionsAtOnce (env : GatewayEnv) (sections : List DrugSection)
    (drug : DrugLabel) (c : Cache) : List DrugSection × Cache :=
  match lookupSectionList c (allSectionsKey drug) with
  | some cached => (cached, c)
  | none =>
    let t := enhanceAllSections env drug c
    match t.result with
    | .error _ => (sections, t.state)
    | .ok enhancedData =>
      let enhancedSections := sections.map (fun sec =>
        let sectionKey := getSectionKeyFromTitle sec.title
        { sec with
          enhancedContent :=
            match enhancedData.lookup sectionKey with
            | some v => if v = "" then none else some v
            | none => none })
      (enhancedSections,
       cacheSet t.state (allSectionsKey drug) (.sectionList enhancedSections) 3600)

/-- The fallback `EnhancedDrugContent` built in the catch block of
`getEnhancedContent` (drug.service.ts:212-222). -/
def fallbackEnhancedContent (drug : DrugLabel) (now : Nat) : EnhancedDrugContent :=
  { id := drug.setId
    drugName := drug.drugName
    genericName := drug.label.genericName
    slug := createSlug drug.drugName
    seoTitle := drug.drugName ++ " (" ++ drug.label.genericName ++ ") - Drug Information"
    metaDescription := "Complete prescribing information for " ++ drug.drugName
      ++ " (" ++ drug.label.genericName ++ "). Indications, dosage, warnings, and more."
    enhancedSummary := drug.drugName ++ " is a prescription medication containing "
      ++ drug.label.genericName ++ "."
    sections := buildDrugSections drug
    lastUpdated := now }

/-- `getEnhancedContent` (drug.service.ts:174-224): cache-check on
`enhanced_content:<id>`, then SEO metadata, summary and section batch in
sequence; a throw from the gateway calls lands in the catch block, which
returns the fallback without caching it; `now` is the abstract
`new Date()` timestamp. -/
def getEnhancedContent (env : GatewayEnv) (drug : DrugLabel) (now : Nat)
    (c : Cache) : EnhancedDrugContent × Cache :=
  match lookupContent c (contentKey drug) with
  | some cached => (cached, c)
  | none =>
    let tSeo := generateSEOMetadata env drug c
    match tSeo.result with
    | .error _ => (fallbackEnhancedContent drug now, tSeo.state)
    | .ok seoMetadata =>
      let tSum := generateDrugSummary env drug tSeo.state
      match tSum.result with
      | .error _ => (fallbackEnhancedContent drug now, tSum.state)
      | .ok enhancedSummary =>
        let sections := buildDrugSections drug
        let r := enhanceAllSectionsAtOnce env sections drug tSum.state
        let enhancedContent : EnhancedDrugContent :=
          { id := drug.setId
            drugName := drug.drugName
            genericName := drug.label.genericName
            slug := createSlug drug.drugName
            seoTitle := seoMetadata.title
            metaDescription := seoMetadata.description
            enhancedSummary := enhancedSummary
            sections := r.1
            lastUpdated := now }
        (enhancedContent, cacheSet r.2 (contentKey drug) (.content enhancedContent) 3600)

/-- `getBasicContent` paired with `buildDrugSections` (the Basic Content
Assembler's full output, drug.service.ts:163-172). -/
def getBasicContent (drug : DrugLabel) (now : Nat) :
    String × String × String × String × List DrugSection × Nat :=
  (drug.setId, drug.drugName, drug.label.genericName, createSlug drug.drugName,
   buildDrugSections drug, now)

/-- `drugName.toLowerCase().replace` of hyphens with spaces. -/
def normalizeDrugName (s : String) : String :=
  hyphensToSpaces (jsToLower s)

/-- `getDrugByNames` (drug.service.ts:98-113). -/
def getDrugByNames (drugs : List DrugLabel) (drugName : String)
    (genericName : Option String) : Option DrugLabel :=
  let normalizedDrugName := normalizeDrugName drugName
  match genericName with
  | some g =>
    let normalizedGenericName := jsToLower g
    drugs.find? (fun drug =>
      normalizeDrugName drug.drugName == normalizedDrugName
      && jsToLower drug.label.genericName == normalizedGenericName)
  | none =>
    drugs.find? (fun drug =>
      normalizeDrugName drug.drugName == normalizedDrugName
      || normalizeDrugName drug.label.genericName == normalizedDrugName)

/-! ## Search (searchDrugs, drug.service.ts:115-161) -/

structure DrugSearchDto where
  query : Option String
  labeler : Option String
  page : Option Nat
  limit : Option Nat
deriving DecidableEq, Repr

structure DrugSearchItem where
  drugName : String
  genericName : String
  labeler : String
  url : String
deriving DecidableEq, Repr

structure PaginationInfo where
  page : Nat
  limit : Nat
  total : Nat
  totalPages : Nat
  hasNext : Bool
  hasPrev : Bool
deriving DecidableEq, Repr

structure SearchResult where
  drugs : List DrugSearchItem
  pagination : PaginationInfo
deriving DecidableEq, Repr

/-- `searchDto.page || 1` and `searchDto.limit || 20`: absent or zero
falls back to the default. -/
def jsOrNat (o : Option Nat) (d : Nat) : Nat :=
  match o with
  | some n => if n = 0 then d else n
  | none => d

/-- `searchDrugs` (drug.service.ts:115-161); a falsy (absent or empty)
query or labeler applies no filter. -/
def searchDrugs (drugs : List DrugLabel) (dto : DrugSearchDto) : SearchResult :=
  let filtered1 :=
    match dto.query with
    | some q =>
      if q = "" then drugs
      else
        let query := jsToLower q
        drugs.filter (fun drug =>
          jsIncludes (jsToLower drug.drugName) query
          || jsIncludes (jsToLower drug.label.genericName) query
          || jsIncludes (jsToLower drug.labeler) query
          || (match drug.label.indicationsAndUsage with
              | some i => jsIncludes (jsToLower i) query
              | none => false))
    | none => drugs
  let filtered2 :=
    match dto.labeler with
    | some l =>
      if l = "" then filtered1
      else
        let labeler := jsToLower l
        filtered1.filter (fun drug => jsIncludes (jsToLower drug.labeler) labeler)
    | none => filtered1
  let page := jsOrNat dto.page 1
  let limit := jsOrNat dto.limit 20
  let startIndex := (page - 1) * limit
  let paginated := (filtered2.drop startIndex).take limit
  let total := filtered2.length
  { drugs := paginated.map (fun drug =>
      { drugName := drug.drugName
        genericName := drug.label.genericName
        labeler := drug.labeler
        url := "/drugs/" ++ createSlug drug.drugName ++ "-"
          ++ createSlug drug.label.genericName })
    pagination :=
      { page := page, limit := limit, total := total
        totalPages := (total + limit - 1) / limit
        hasNext := decide (startIndex + limit < total)
        hasPrev := decide (page > 1) } }

/-! ## Tool Protocol Adapter (McpService)

The JSON-RPC envelope is embedded structurally: the constant
`jsonrpc: '2.0'` member carried by every request and response is elided,
an absent `id` is the outer `none` of `Option (Option JsonId)` and an
explicit `null` the inner one, and each `JSON.stringify(...)` payload is
represented by a typed constructor rather than a string (the
serialization is injective and external to this core). -/

/-- A JSON-RPC correlation id: `string | number`. -/
inductive JsonId where
  | str (s : String)
  | num (n : Int)
deriving DecidableEq, Repr

/-- JavaScript truthiness of an id value: `0` and `""` are falsy. -/
def JsonId.truthy : JsonId → Bool
  | .str s => s != ""
  | .num n => n != 0

/-- `request.id ?? null`. -/
def idCoalesce : Option (Option JsonId) → Option JsonId
  | none => none
  | some none => none
  | some (some v) => some v

/-- `request.id || null` (the unknown-method branch): a falsy id is
replaced by `null`. -/
def idOrNull : Option (Option JsonId) → Option JsonId
  | none => none
  | some none => none
  | some (some v) => if v.truthy then some v else none

structure McpError where
  code : Int
  message : String
deriving DecidableEq, Repr

/-- One text content item of a tool result; serialized payloads are kept
structured. -/
inductive ToolText where
  | text (s : String)
  | contentJson (c : EnhancedDrugContent)
  | searchJson (r : SearchResult)
  | sectionsJson (drugName : String) (genericName : String)
      (enhancedSections : List (String × String × String))
deriving DecidableEq, Repr

structure McpToolResult where
  content : List ToolText
  isError : Option Bool
deriving DecidableEq, Repr

/-- One descriptor of the static tool catalog; the JSON-schema property
descriptions are elided, only the names, descriptions and required
arguments are kept. -/
structure McpTool where
  name : String
  description : String
  requiredArgs : List String
deriving DecidableEq, Repr

/-- The static catalog returned by `tools/list`. -/
def toolCatalog : List McpTool :=
  [{ name := "get_drug_by_name"
     description := "Get detailed drug information by drug name and optional generic name"
     requiredArgs := ["drugName"] },
   { name := "search_drugs"
     description := "Search for drugs by name, generic name, or labeler"
     requiredArgs := [] },
   { name := "get_enhanced_sections"
     description := "Get AI-enhanced content sections for a specific drug"
     requiredArgs := ["drugName"] }]

/-- The `arguments` object of a `tools/call`; every member is optional in
JSON, the per-tool casts read the members they need. -/
structure ToolArgs where
  drugName : Option String
  genericName : Option String
  query : Option String
  labeler : Option String
  page : Option Nat
  limit : Option Nat
deriving DecidableEq, Repr

structure McpToolCall where
  name : String
  arguments : ToolArgs
deriving DecidableEq, Repr

structure McpRequest where
  method : String
  params : Option McpToolCall
  id : Option (Option JsonId)

/-- A response result payload. -/
inductive McpResult where
  | initResult (protocolVersion serverName serverVersion : String)
  | toolsList (tools : List McpTool)
  | tool (r : McpToolResult)
deriving DecidableEq, Repr

structure McpResponse where
  id : Option JsonId
  result : Option McpResult
  error : Option McpError
deriving DecidableEq, Repr

/-- The collaborators behind the adapter: the loaded record set, the
gateway environment and the clock. -/
structure McpEnv where
  drugs : List DrugLabel
  gw : GatewayEnv
  now : Nat

/-- A thrown JavaScript exception, carried as its message. -/
abbrev Thrown := String

/-- `getDrugByName` (mcp.service.ts:171-199). A missing `drugName`
argument makes `getDrugByNames` call `toLowerCase` on `undefined`, which
throws. -/
def getDrugByNameTool (env : McpEnv) (args : ToolArgs) (c : Cache) :
    Except Thrown McpToolResult × Cache :=
  match args.drugName with
  | none => (.error "Cannot read properties of undefined (reading 'toLowerCase')", c)
  | some drugName =>
    match getDrugByNames env.drugs drugName args.genericName with
    | none =>
      let searchTerm :=
        match args.genericName with
        | some g => drugName ++ " (" ++ g ++ ")"
        | none => drugName
      (.ok { content := [.text ("Drug not found: " ++ searchTerm)],
             isError := some true }, c)
    | some drug =>
      let r := getEnhancedContent env.gw drug env.now c
      (.ok { content := [.contentJson r.1], isError := none }, r.2)

/-- `searchDrugs` tool (mcp.service.ts:201-212). -/
def searchDrugsTool (env : McpEnv) (args : ToolArgs) : McpToolResult :=
  { content := [.searchJson (searchDrugs env.drugs
      { query := args.query, labeler := args.labeler,
        page := args.page, limit := args.limit })]
    isError := none }

/-- JavaScript truthiness of `section.enhancedContent`: present and
non-empty. -/
def enhancedTruthy (s : DrugSection) : Bool :=
  match s.enhancedContent with
  | some v => v != ""
  | none => false

/-- `getEnhancedSections` (mcp.service.ts:214-252). -/
def getEnhancedSectionsTool (env : McpEnv) (args : ToolArgs) (c : Cache) :
    Except Thrown McpToolResult × Cache :=
  match args.drugName with
  | none => (.error "Cannot read properties of undefined (reading 'toLowerCase')", c)
  | some drugName =>
    match getDrugByNames env.drugs drugName args.genericName with
    | none =>
      let searchTerm :=
        match args.genericName with
        | some g => drugName ++ " (" ++ g ++ ")"
        | none => drugName
      (.ok { content := [.text ("Drug not found: " ++ searchTerm)],
             isError := some true }, c)
    | some drug =>
      let r := getEnhancedContent env.gw drug env.now c
      let enhancedSections := r.1.sections.filter enhancedTruthy
      (.ok { content := [.sectionsJson r.1.drugName r.1.genericName
               (enhancedSections.map (fun s =>
                 (s.title, s.content, s.enhancedContent.getD "")))]
             isError := none }, r.2)

/-- `executeTool` (mcp.service.ts:155-169); an unregistered name throws
`Unknown tool: <name>`. -/
def executeTool (env : McpEnv) (toolCall : McpToolCall) (c : Cache) :
    Except Thrown McpToolResult × Cache :=
  match toolCall.name with
  | "get_drug_by_name" => getDrugByNameTool env toolCall.arguments c
  | "search_drugs" => (.ok (searchDrugsTool env toolCall.arguments), c)
  | "get_enhanced_sections" => getEnhancedSectionsTool env toolCall.arguments c
  | other => (.error ("Unknown tool: " ++ other), c)

/-- `callTool` (mcp.service.ts:127-153): any throw out of `executeTool`
is converted to a tool-level result with `isError: true`. When `params`
is absent both the dispatch and its catch block dereference `undefined`,
so the exception escapes the adapter (`Except.error`). -/
def callTool (env : McpEnv) (id : Option JsonId) (params : Option McpToolCall)
    (c : Cache) : Except Thrown McpResponse × Cache :=
  match params with
  | none => (.error "Cannot read properties of undefined (reading 'name')", c)
  | some toolCall =>
    match executeTool env toolCall c with
    | (.ok result, c') =>
      (.ok { id := id, result := some (.tool result), error := none }, c')
    | (.error msg, c') =>
      (.ok { id := id
             result := some (.tool
               { content := [.text ("Error executing tool: " ++ msg)]
                 isError := some true })
             error := none }, c')

/-- `handleRequest` (mcp.service.ts:11-32). -/
def handleRequest (env : McpEnv) (request : McpRequest) (c : Cache) :
    Except Thrown McpResponse × Cache :=
  match request.method with
  | "tools/list" =>
    (.ok { id := idCoalesce request.id
           result := some (.toolsList toolCatalog), error := none }, c)
  | "tools/call" => callTool env (idCoalesce request.id) request.params c
  | "initialize" =>
    (.ok { id := idCoalesce request.id
           result := some (.initResult "2024-11-05" "rxview-drug-server" "1.0.0")
           error := none }, c)
  | m =>
    (.ok { id := idOrNull request.id
           result := none
           error := some { code := -32601, message := "Method not found: " ++ m } }, c)

/-! ## Claim-side predicates (formalizing the specification's wording) -/

/-- Spec wording (C10, no generic supplied): the record's brand name OR
generic name, each lowercased with hyphens replaced by spaces, equals the
normalized `drugName` argument. -/
def matchesNoGeneric (n : String) (d : DrugLabel) : Prop :=
  normalizeDrugName d.drugName = normalizeDrugName n
  ∨ normalizeDrugName d.label.genericName = normalizeDrugName n

/-- Spec wording (C10, generic supplied): normalized brand name equals the
normalized `drugName` AND the lowercased generic name (hyphens untouched
on this side) equals the lowercased `genericName`. -/
def matchesWithGeneric (n g : String) (d : DrugLabel) : Prop :=
  normalizeDrugName d.drugName = normalizeDrugName n
  ∧ jsToLower d.label.genericName = jsToLower g

instance (n : String) (d : DrugLabel) : Decidable (matchesNoGeneric n d) := by
  unfold matchesNoGeneric; infer_instance

instance (n g : String) (d : DrugLabel) : Decidable (matchesWithGeneric n g d) := by
  unfold matchesWithGeneric; infer_instance

/-- The `searchTerm` of the two drug tools' not-found messages. -/
def searchTermOf (dn : String) (g : Option String) : String :=
  match g with
  | some gn => dn ++ " (" ++ gn ++ ")"
  | none => dn

/-- The three registered tool names. -/
def registeredToolNames : List String :=
  ["get_drug_by_name", "search_drugs", "get_enhanced_sections"]

/-- The three recognized top-level methods of `handleRequest`. -/
def recognizedMethod (m : String) : Bool :=
  m == "tools/list" || m == "tools/call" || m == "initialize"

/-! ## Concrete fixtures used by witnesses and counterexamples -/

def testLabel : Label :=
  { genericName := "acetylsalicylic-acid"
    labelerName := "Test Pharma"
    productType := "HUMAN PRESCRIPTION DRUG"
    effectiveTime := "20240101"
    title := "Aspirin"
    indicationsAndUsage := some "Pain relief"
    dosageAndAdministration := some "325mg daily"
    dosageFormsAndStrengths := none
    warningsAndPrecautions := none
    adverseReactions := none
    clinicalPharmacology := none
    clinicalStudies := none
    howSupplied := none
    useInSpecificPopulations := none
    description := none
    nonclinicalToxicology := none
    instructionsForUse := none
    contraindications := none
    drugInteractions := none
    overdosage := none
    references := none
    patientCounselingInformation := none }

def testDrug : DrugLabel :=
  { drugName := "Aspirin", setId := "123", slug := "aspirin"
    labeler := "Test Pharma", label := testLabel }

/-- A transient (non-rate-limit) provider error. -/
def connResetErr : GwErr := ⟨false, "ECONNRESET"⟩

/-- A gateway whose provider fails every attempt with a transient error. -/
def failEnv : GatewayEnv :=
  { hasKey := true
    provSeo := fun _ => .error connResetErr
    provSum := fun _ => .error connResetErr
    provSec := fun _ => .error connResetErr
    parseSEO := fun _ => none
    parseMap := fun _ => none }

/-- A gateway whose provider always answers with unparseable text. -/
def badJsonEnv : GatewayEnv :=
  { hasKey := true
    provSeo := fun _ => .ok (some "not json")
    provSum := fun _ => .ok (some "a summary")
    provSec := fun _ => .ok "not json"
    parseSEO := fun _ => none
    parseMap := fun _ => none }

def cachedSeoFixture : SEOMetadata :=
  { title := "Cached title", description := "Cached description" }

/-- Five sections of which exactly two carry enhanced content. -/
def mixedSections : List DrugSection :=
  [{ id := "123-indicationsAndUsage", title := "Indications and Usage"
     content := "c1", enhancedContent := some "e1", order := 1 },
   { id := "123-dosageAndAdministration", title := "Dosage and Administration"
     content := "c2", enhancedContent := none, order := 2 },
   { id := "123-warningsAndPrecautions", title := "Warnings and Precautions"
     content := "c3", enhancedContent := some "e3", order := 3 },
   { id := "123-adverseReactions", title := "Adverse Reactions"
     content := "c4", enhancedContent := none, order := 4 },
   { id := "123-description", title := "Description"
     content := "c5", enhancedContent := none, order := 5 }]

def mixedContent : EnhancedDrugContent :=
  { id := "123", drugName := "Aspirin", genericName := "acetylsalicylic-acid"
    slug := "aspirin", seoTitle := "t", metaDescription := "d"
    enhancedSummary := "s", sections := mixedSections, lastUpdated := 0 }

def mcpTestEnv : McpEnv := { drugs := [testDrug], gw := failEnv, now := 0 }

/-- A cache already holding assembled content for `testDrug`. -/
def mixedCache : Cache :=
  cacheSet [] (contentKey testDrug) (.content mixedContent) 3600

/-- A cache already holding SEO metadata for `testDrug`. -/
def seoPreCache : Cache :=
  cacheSet [] (seoKey testDrug) (.seoMeta cachedSeoFixture) 86400

/-- Arguments naming a drug absent from the record set. -/
def notFoundArgs : ToolArgs :=
  { drugName := some "nosuchdrug", genericName := none, query := none,
    labeler := none, page := none, limit := none }

/-- Arguments resolving to `testDrug` by its lowercased brand name. -/
def aspirinArgs : ToolArgs :=
  { drugName := some "aspirin", genericName := none, query := none,
    labeler := none, page := none, limit := none }

/-! ## Lemmas about the Basic Content Assembler -/

/-- Characterization of the section-building loop: the produced sections
are, in table order, exactly the populated fields, and the `order`
values count up from the initial counter with no gaps. -/
theorem buildDrugSectionsAux_spec (drug : DrugLabel) :
    ∀ (ms : List (String × String)) (start : Nat),
    (buildDrugSectionsAux drug ms start).map
        (fun s => (s.id, s.title, s.content, s.enhancedContent))
      = (ms.filter (fun p => fieldPopulated drug.label p.1)).map
          (fun p => (drug.setId ++ "-" ++ p.1, p.2,
                     (labelField drug.label p.1).getD "", none))
    ∧ (buildDrugSectionsAux drug ms start).map DrugSection.order
      = List.range' start
          ((ms.filter (fun p => fieldPopulated drug.label p.1)).length) := by
  intro ms
  induction ms with
  | nil => intro start; simp [buildDrugSectionsAux]
  | cons p rest ih =>
    intro start
    obtain ⟨key, title⟩ := p
    cases h : labelField drug.label key with
    | none =>
      have hpop : fieldPopulated drug.label key = false := by
        simp [fieldPopulated, h]
      simp only [buildDrugSectionsAux, h]
      simp [hpop, ih start]
    | some content =>
      by_cases hc : content = ""
      · have hpop : fieldPopulated drug.label key = false := by
          simp [fieldPopulated, h, hc]
        simp only [buildDrugSectionsAux, h]
        simp [hc, hpop, ih start]
      · have hpop : fieldPopulated drug.label key = true := by
          simp [fieldPopulated, h, hc]
        simp only [buildDrugSectionsAux, h]
        constructor
        · simp [hc, hpop, (ih (start + 1)).1, h]
        · simp [hc, hpop, (ih (start + 1)).2, List.range'_succ]

/-- C5: for every record, `buildDrugSections` returns exactly one section
per populated (present, non-empty) field of the twelve-entry table, in
fixed table order — with the table's title, the field's content, the id
`<setId>-<key>` and no enhancedContent — and assigns `order` values
1..N consecutively; absent or empty fields produce no section. -/
theorem buildDrugSections_section_ordering (drug : DrugLabel) :
    (buildDrugSections drug).map
        (fun s => (s.id, s.title, s.content, s.enhancedContent))
      = ((sectionMappings.filter (fun p => fieldPopulated drug.label p.1)).map
          (fun p => (drug.setId ++ "-" ++ p.1, p.2,
                     (labelField drug.label p.1).getD "", none)))
    ∧ (buildDrugSections drug).map DrugSection.order
      = List.range' 1
          ((sectionMappings.filter (fun p => fieldPopulated drug.label p.1)).length) :=
  buildDrugSectionsAux_spec drug sectionMappings 1

/-! ## Lemmas about the retry loop -/

theorem retry_ok {σ T : Type} {op : Nat → σ → Except GwErr T × σ}
    {attempt : Nat} {s : σ} {v : T} {s' : σ}
    (h : op attempt s = (Except.ok v, s')) :
    callOpenAIWithRetry op attempt s = ⟨Except.ok v, s', 1, []⟩ := by
  unfold callOpenAIWithRetry
  rw [h]

theorem retry_error_last {σ T : Type} {op : Nat → σ → Except GwErr T × σ}
    {attempt : Nat} {s : σ} {e : GwErr} {s' : σ}
    (h : op attempt s = (Except.error e, s')) (ha : attempt ≥ maxRetries) :
    callOpenAIWithRetry op attempt s = ⟨Except.error e, s', 1, []⟩ := by
  unfold callOpenAIWithRetry
  rw [h]
  simp [ha]

theorem retry_error_step {σ T : Type} {op : Nat → σ → Except GwErr T × σ}
    {attempt : Nat} {s : σ} {e : GwErr} {s' : σ}
    (h : op attempt s = (Except.error e, s')) (ha : attempt < maxRetries) :
    callOpenAIWithRetry op attempt s =
      ⟨(callOpenAIWithRetry op (attempt + 1) s').result,
       (callOpenAIWithRetry op (attempt + 1) s').state,
       (callOpenAIWithRetry op (attempt + 1) s').attempts + 1,
       retryDelay e attempt :: (callOpenAIWithRetry op (attempt + 1) s').delays⟩ := by
  rw [callOpenAIWithRetry]
  rw [h]
  simp [Nat.not_le.mpr ha, retryDelay]

/-- Full expansion of a run that starts, as every call site does, at
attempt 1 and fails the first two attempts. -/
theorem retry_all_fail {σ T : Type} {op : Nat → σ → Except GwErr T × σ}
    {s : σ} {e1 e2 : GwErr} {s1 s2 : σ} {r3 : Except GwErr T} {s3 : σ}
    (h1 : op 1 s = (Except.error e1, s1))
    (h2 : op 2 s1 = (Except.error e2, s2))
    (h3 : op 3 s2 = (r3, s3)) :
    callOpenAIWithRetry op 1 s
      = ⟨r3, s3, 3, [retryDelay e1 1, retryDelay e2 2]⟩ := by
  rw [retry_error_step h1 (by decide), retry_error_step h2 (by decide)]
  cases r3 with
  | ok v => rw [retry_ok h3]
  | error e => rw [retry_error_last h3 (by decide)]

/-- Expansion of a run whose first attempt fails and second succeeds. -/
theorem retry_ok2 {σ T : Type} {op : Nat → σ → Except GwErr T × σ}
    {s : σ} {e1 : GwErr} {s1 : σ} {v : T} {s2 : σ}
    (h1 : op 1 s = (Except.error e1, s1))
    (h2 : op 2 s1 = (Except.ok v, s2)) :
    callOpenAIWithRetry op 1 s = ⟨Except.ok v, s2, 2, [retryDelay e1 1]⟩ := by
  rw [retry_error_step h1 (by decide), retry_ok h2]

/-- C2: every Model Gateway operation wrapped in `callOpenAIWithRetry`
makes at most 3 attempts; the delay before the retry after attempt `k` is
`1000 * 2^(k-1)` ms on a rate-limit error (1000ms then 2000ms) and a
fixed 500ms on any other error; and after a third failed attempt the
third attempt's error is thrown to the caller. -/
theorem retry_policy {σ T : Type} (op : Nat → σ → Except GwErr T × σ) (s : σ) :
    (callOpenAIWithRetry op 1 s).attempts ≤ 3
    ∧ (∀ v s1, op 1 s = (Except.ok v, s1) →
        callOpenAIWithRetry op 1 s = ⟨Except.ok v, s1, 1, []⟩)
    ∧ (∀ e1 s1, op 1 s = (Except.error e1, s1) →
        (callOpenAIWithRetry op 1 s).delays.head?
            = some (if e1.rateLimit then 1000 * 2 ^ (1 - 1) else 500)
        ∧ ∀ e2 s2, op 2 s1 = (Except.error e2, s2) →
            (callOpenAIWithRetry op 1 s).delays
                = [if e1.rateLimit then 1000 * 2 ^ (1 - 1) else 500,
                   if e2.rateLimit then 1000 * 2 ^ (2 - 1) else 500]
            ∧ ∀ e3 s3, op 3 s2 = (Except.error e3, s3) →
                (callOpenAIWithRetry op 1 s).result = Except.error e3
                ∧ (callOpenAIWithRetry op 1 s).attempts = 3) := by
  have hdelay : ∀ (e : GwErr) (k : Nat),
      retryDelay e k = if e.rateLimit then 1000 * 2 ^ (k - 1) else 500 := by
    intro e k; simp [retryDelay, baseDelay]
  refine ⟨?_, ?_, ?_⟩
  · rcases h1 : op 1 s with ⟨r1, s1⟩
    cases r1 with
    | ok v => rw [retry_ok h1]; simp
    | error e1 =>
      rcases h2 : op 2 s1 with ⟨r2, s2⟩
      cases r2 with
      | ok v => rw [retry_ok2 h1 h2]; simp
      | error e2 =>
        rcases h3 : op 3 s2 with ⟨r3, s3⟩
        rw [retry_all_fail h1 h2 h3]
  · intro v s1 h1
    exact retry_ok h1
  · intro e1 s1 h1
    constructor
    · rcases h2 : op 2 s1 with ⟨r2, s2⟩
      cases r2 with
      | ok v => rw [retry_ok2 h1 h2, ← hdelay]; simp
      | error e2 =>
        rcases h3 : op 3 s2 with ⟨r3, s3⟩
        rw [retry_all_fail h1 h2 h3, ← hdelay]; simp
    · intro e2 s2 h2
      constructor
      · rcases h3 : op 3 s2 with ⟨r3, s3⟩
        rw [retry_all_fail h1 h2 h3, ← hdelay, ← hdelay]
      · intro e3 s3 h3
        rw [retry_all_fail h1 h2 h3]
        exact ⟨rfl, rfl⟩

/-- Witness for C2: a provider that is rate-limited on every attempt
yields exactly 3 attempts, delays 1000ms then 2000ms, and the final
error thrown. -/
theorem retry_policy_witness :
    (callOpenAIWithRetry
        (fun (_ : Nat) (_ : Unit) =>
          ((Except.error ⟨true, "rate limited"⟩ : Except GwErr Unit), ()))
        1 ()).delays = [1000, 2000]
    ∧ (callOpenAIWithRetry
        (fun (_ : Nat) (_ : Unit) =>
          ((Except.error ⟨true, "rate limited"⟩ : Except GwErr Unit), ()))
        1 ()).result = Except.error ⟨true, "rate limited"⟩
    ∧ (callOpenAIWithRetry
        (fun (_ : Nat) (_ : Unit) =>
          ((Except.error ⟨true, "rate limited"⟩ : Except GwErr Unit), ()))
        1 ()).attempts = 3 := by
  have h := retry_policy
      (fun (_ : Nat) (_ : Unit) =>
        ((Except.error ⟨true, "rate limited"⟩ : Except GwErr Unit), ())) ()
  have h2 := (h.2.2 ⟨true, "rate limited"⟩ () rfl).2 ⟨true, "rate limited"⟩ () rfl
  have h3 := h2.2 ⟨true, "rate limited"⟩ () rfl
  refine ⟨?_, h3.1, h3.2⟩
  rw [h2.1]
  norm_num

/-! ## Cache and key lemmas -/

theorem cacheGet_set (c : Cache) (k : String) (v : CacheValue) (t : Nat)
    (k' : String) :
    cacheGet (cacheSet c k v t) k' = if k = k' then some v else cacheGet c k' := by
  simp only [cacheGet, cacheSet, List.find?]
  by_cases h : k = k'
  · simp [h]
  · have hb : (k == k') = false := beq_eq_false_iff_ne.mpr h
    rw [hb]
    simp [h]

theorem append_ne_empty_right (a b : String) (hb : b ≠ "") : a ++ b ≠ "" := by
  intro hc
  have hd : a.data ++ b.data = [] := by
    have h2 := congrArg String.data hc
    rw [String.data_append] at h2
    exact h2
  exact hb (String.ext (List.append_eq_nil.mp hd).2)

theorem append_ne_append {p q : String} (x y : String)
    (h1 : ¬ p.data <+: q.data) (h2 : ¬ q.data <+: p.data) : p ++ x ≠ q ++ y := by
  intro he
  have hd : p.data ++ x.data = q.data ++ y.data := by
    have := congrArg String.data he
    simpa [String.data_append] using this
  rcases List.append_eq_append_iff.mp hd with ⟨a, ha, _⟩ | ⟨b, hb, _⟩
  · exact h1 ⟨a, ha.symm⟩
  · exact h2 ⟨b, hb.symm⟩

theorem seoKey_ne_contentKey (d e : DrugLabel) : seoKey d ≠ contentKey e := by
  unfold seoKey contentKey
  exact append_ne_append _ _ (by decide) (by decide)

theorem summaryKey_ne_contentKey (d e : DrugLabel) : summaryKey d ≠ contentKey e := by
  unfold summaryKey contentKey
  exact append_ne_append _ _ (by decide) (by decide)

theorem sectionsKey_ne_contentKey (d e : DrugLabel) : sectionsKey d ≠ contentKey e := by
  unfold sectionsKey contentKey
  exact append_ne_append _ _ (by decide) (by decide)

theorem allSectionsKey_ne_contentKey (d e : DrugLabel) :
    allSectionsKey d ≠ contentKey e := by
  unfold allSectionsKey contentKey
  exact append_ne_append _ _ (by decide) (by decide)

/-! ## The retry loop agrees with its fueled twin -/

theorem retryGo_ok_eq {σ T : Type} {op : Nat → σ → Except GwErr T × σ}
    {attempt : Nat} {s : σ} {v : T} {s' : σ} (fuel : Nat)
    (h : op attempt s = (Except.ok v, s')) :
    retryGo op fuel attempt s = ⟨Except.ok v, s', 1, []⟩ := by
  rw [retryGo, h]

theorem retryGo_err_zero {σ T : Type} {op : Nat → σ → Except GwErr T × σ}
    {attempt : Nat} {s : σ} {e : GwErr} {s' : σ}
    (h : op attempt s = (Except.error e, s')) :
    retryGo op 0 attempt s = ⟨Except.error e, s', 1, []⟩ := by
  rw [retryGo, h]

theorem retryGo_err_succ {σ T : Type} {op : Nat → σ → Except GwErr T × σ}
    {attempt : Nat} {s : σ} {e : GwErr} {s' : σ} (fuel : Nat)
    (h : op attempt s = (Except.error e, s')) :
    retryGo op (fuel + 1) attempt s
      = ⟨(retryGo op fuel (attempt + 1) s').result,
         (retryGo op fuel (attempt + 1) s').state,
         (retryGo op fuel (attempt + 1) s').attempts + 1,
         retryDelay e attempt :: (retryGo op fuel (attempt + 1) s').delays⟩ := by
  rw [retryGo, h]

theorem callOpenAIWithRetry_eq_go {σ T : Type}
    (op : Nat → σ → Except GwErr T × σ) :
    ∀ (n attempt : Nat) (s : σ), maxRetries - attempt = n →
      callOpenAIWithRetry op attempt s = retryGo op n attempt s := by
  intro n
  induction n with
  | zero =>
    intro attempt s h
    rcases hop : op attempt s with ⟨r, s'⟩
    cases r with
    | ok v => rw [retry_ok hop, retryGo_ok_eq 0 hop]
    | error e =>
      have ha : attempt ≥ maxRetries := by omega
      rw [retry_error_last hop ha, retryGo_err_zero hop]
  | succ n ih =>
    intro attempt s h
    have ha : attempt < maxRetries := by omega
    rcases hop : op attempt s with ⟨r, s'⟩
    cases r with
    | ok v => rw [retry_ok hop, retryGo_ok_eq (n + 1) hop]
    | error e =>
      rw [retry_error_step hop ha, retryGo_err_succ n hop,
          ih (attempt + 1) s' (by omega)]

/-- Every call site starts at attempt 1, where the remaining budget is 2. -/
theorem callOpenAIWithRetry_run {σ T : Type}
    (op : Nat → σ → Except GwErr T × σ) (s : σ) :
    callOpenAIWithRetry op 1 s = retryGo op 2 1 s :=
  callOpenAIWithRetry_eq_go op 2 1 s rfl

/-- An operation that never changes the cache entry at `K` leaves it
unchanged across the whole retried run. -/
theorem retryGo_frame {T : Type} (op : Nat → Cache → Except GwErr T × Cache)
    (K : String) (hop : ∀ a c, cacheGet (op a c).2 K = cacheGet c K) :
    ∀ (n attempt : Nat) (c : Cache),
      cacheGet (retryGo op n attempt c).state K = cacheGet c K := by
  intro n
  induction n with
  | zero =>
    intro attempt c
    have hc := hop attempt c
    rcases hop2 : op attempt c with ⟨r, s'⟩
    rw [hop2] at hc
    cases r with
    | ok v => rw [retryGo_ok_eq 0 hop2]; exact hc
    | error e => rw [retryGo_err_zero hop2]; exact hc
  | succ n ih =>
    intro attempt c
    have hc := hop attempt c
    rcases hop2 : op attempt c with ⟨r, s'⟩
    rw [hop2] at hc
    cases r with
    | ok v => rw [retryGo_ok_eq (n + 1) hop2]; exact hc
    | error e =>
      rw [retryGo_err_succ n hop2]
      show cacheGet (retryGo op n (attempt + 1) s').state K = cacheGet c K
      rw [ih (attempt + 1) s']
      exact hc

/-- A successful retried run got its value from a successful invocation
of the operation, whose post-state is the run's final state. -/
theorem retryGo_ok_state {σ T : Type} (op : Nat → σ → Except GwErr T × σ) :
    ∀ (n attempt : Nat) (s : σ) (v : T),
      (retryGo op n attempt s).result = Except.ok v →
      ∃ a s₀, op a s₀ = (Except.ok v, (retryGo op n attempt s).state) := by
  intro n
  induction n with
  | zero =>
    intro attempt s v hv
    rcases hop : op attempt s with ⟨r, s'⟩
    cases r with
    | ok w =>
      rw [retryGo_ok_eq 0 hop] at hv ⊢
      simp at hv
      exact ⟨attempt, s, by rw [hop, hv]⟩
    | error e =>
      rw [retryGo_err_zero hop] at hv
      simp at hv
  | succ n ih =>
    intro attempt s v hv
    rcases hop : op attempt s with ⟨r, s'⟩
    cases r with
    | ok w =>
      rw [retryGo_ok_eq (n + 1) hop] at hv ⊢
      simp at hv
      exact ⟨attempt, s, by rw [hop, hv]⟩
    | error e =>
      rw [retryGo_err_succ n hop] at hv ⊢
      exact ih (attempt + 1) s' v hv

/-! ## Phase lemmas for the gateway operations -/

theorem generateSEOMetadata_noKey (env : GatewayEnv) (drug : DrugLabel)
    (c : Cache) (hk : env.hasKey = false) :
    generateSEOMetadata env drug c = ⟨.ok (getFallbackSEOMetadata drug), c, 0, []⟩ := by
  unfold generateSEOMetadata
  rw [hk]
  rfl

theorem generateSEOMetadata_hit (env : GatewayEnv) (drug : DrugLabel)
    (c : Cache) (m : SEOMetadata) (hk : env.hasKey = true)
    (hhit : lookupSeo c (seoKey drug) = some m) :
    generateSEOMetadata env drug c = ⟨.ok m, c, 0, []⟩ := by
  unfold generateSEOMetadata
  rw [hk, hhit]
  rfl

theorem generateSEOMetadata_miss (env : GatewayEnv) (drug : DrugLabel)
    (c : Cache) (hk : env.hasKey = true)
    (hmiss : lookupSeo c (seoKey drug) = none) :
    generateSEOMetadata env drug c = callOpenAIWithRetry (seoOp env drug) 1 c := by
  unfold generateSEOMetadata
  rw [hk, hmiss]
  rfl

theorem generateDrugSummary_noKey (env : GatewayEnv) (drug : DrugLabel)
    (c : Cache) (hk : env.hasKey = false) :
    generateDrugSummary env drug c = ⟨.ok (getFallbackSummary drug), c, 0, []⟩ := by
  unfold generateDrugSummary
  rw [hk]
  rfl

theorem generateDrugSummary_hit (env : GatewayEnv) (drug : DrugLabel)
    (c : Cache) (s : String) (hk : env.hasKey = true)
    (hhit : lookupSummary c (summaryKey drug) = some s) :
    generateDrugSummary env drug c = ⟨.ok s, c, 0, []⟩ := by
  unfold generateDrugSummary
  rw [hk, hhit]
  rfl

theorem generateDrugSummary_miss (env : GatewayEnv) (drug : DrugLabel)
    (c : Cache) (hk : env.hasKey = true)
    (hmiss : lookupSummary c (summaryKey drug) = none) :
    generateDrugSummary env drug c = callOpenAIWithRetry (summaryOp env drug) 1 c := by
  unfold generateDrugSummary
  rw [hk, hmiss]
  rfl

theorem enhanceAllSections_noKey (env : GatewayEnv) (drug : DrugLabel)
    (c : Cache) (hk : env.hasKey = false) :
    enhanceAllSections env drug c = ⟨.ok [], c, 0, []⟩ := by
  unfold enhanceAllSections
  rw [hk]
  rfl

theorem enhanceAllSections_hit (env : GatewayEnv) (drug : DrugLabel)
    (c : Cache) (m : List (String × String)) (hk : env.hasKey = true)
    (hhit : lookupSectionMap c (sectionsKey drug) = some m) :
    enhanceAllSections env drug c = ⟨.ok m, c, 0, []⟩ := by
  unfold enhanceAllSections
  rw [hk, hhit]
  rfl

theorem enhanceAllSections_emptyKeys (env : GatewayEnv) (drug : DrugLabel)
    (c : Cache) (hk : env.hasKey = true)
    (hmiss : lookupSectionMap c (sectionsKey drug) = none)
    (hempty : (availableSectionKeys drug).isEmpty = true) :
    enhanceAllSections env drug c = ⟨.ok [], c, 0, []⟩ := by
  unfold enhanceAllSections
  rw [hk, hmiss, hempty]
  rfl

theorem enhanceAllSections_miss (env : GatewayEnv) (drug : DrugLabel)
    (c : Cache) (hk : env.hasKey = true)
    (hmiss : lookupSectionMap c (sectionsKey drug) = none)
    (hne : (availableSectionKeys drug).isEmpty = false) :
    enhanceAllSections env drug c
      = callOpenAIWithRetry (sectionsOp env drug) 1 c := by
  unfold enhanceAllSections
  rw [hk, hmiss, hne]
  rfl

/-! ## Frame lemmas: the gateway operations never touch other namespaces -/

theorem seoOp_frame (env : GatewayEnv) (drug : DrugLabel) (K : String)
    (hK : seoKey drug ≠ K) :
    ∀ a c, cacheGet ((seoOp env drug) a c).2 K = cacheGet c K := by
  intro a c
  rcases hp : env.provSeo a with e | r
  · simp [seoOp, hp]
  · rcases r with _ | response
    · simp [seoOp, hp]
    · rcases hq : env.parseSEO response with _ | m
      · simp [seoOp, hp, hq]
      · simp [seoOp, hp, hq, cacheGet_set, hK]

theorem summaryOp_frame (env : GatewayEnv) (drug : DrugLabel) (K : String)
    (hK : summaryKey drug ≠ K) :
    ∀ a c, cacheGet ((summaryOp env drug) a c).2 K = cacheGet c K := by
  intro a c
  rcases hp : env.provSum a with e | r
  · simp [summaryOp, hp]
  · simp [summaryOp, hp, cacheGet_set, hK]

theorem sectionsOp_frame (env : GatewayEnv) (drug : DrugLabel) (K : String)
    (hK : sectionsKey drug ≠ K) :
    ∀ a c, cacheGet ((sectionsOp env drug) a c).2 K = cacheGet c K := by
  intro a c
  rcases hp : env.provSec a with e | t
  · simp [sectionsOp, hp]
  · rcases hq : env.parseMap t with _ | m
    · simp [sectionsOp, hp, hq]
    · simp [sectionsOp, hp, hq, cacheGet_set, hK]

theorem generateSEOMetadata_frame (env : GatewayEnv) (drug : DrugLabel)
    (c : Cache) (K : String) (hK : seoKey drug ≠ K) :
    cacheGet (generateSEOMetadata env drug c).state K = cacheGet c K := by
  cases hk : env.hasKey with
  | false => rw [generateSEOMetadata_noKey env drug c hk]
  | true =>
    cases hhit : lookupSeo c (seoKey drug) with
    | some m => rw [generateSEOMetadata_hit env drug c m hk hhit]
    | none =>
      rw [generateSEOMetadata_miss env drug c hk hhit, callOpenAIWithRetry_run]
      exact retryGo_frame _ K (seoOp_frame env drug K hK) 2 1 c

theorem generateDrugSummary_frame (env : GatewayEnv) (drug : DrugLabel)
    (c : Cache) (K : String) (hK : summaryKey drug ≠ K) :
    cacheGet (generateDrugSummary env drug c).state K = cacheGet c K := by
  cases hk : env.hasKey with
  | false => rw [generateDrugSummary_noKey env drug c hk]
  | true =>
    cases hhit : lookupSummary c (summaryKey drug) with
    | some s => rw [generateDrugSummary_hit env drug c s hk hhit]
    | none =>
      rw [generateDrugSummary_miss env drug c hk hhit, callOpenAIWithRetry_run]
      exact retryGo_frame _ K (summaryOp_frame env drug K hK) 2 1 c

/-- Every section the Basic Content Assembler builds has no enhanced
content. -/
theorem buildDrugSections_enhancedContent_none (drug : DrugLabel) :
    ∀ s ∈ buildDrugSections drug, s.enhancedContent = none := by
  have key : ∀ (ms : List (String × String)) (start : Nat),
      ∀ s ∈ buildDrugSectionsAux drug ms start, s.enhancedContent = none := by
    intro ms
    induction ms with
    | nil => intro start s hs; simp [buildDrugSectionsAux] at hs
    | cons p rest ih =>
      intro start s hs
      obtain ⟨key, title⟩ := p
      cases h : labelField drug.label key with
      | none =>
        rw [buildDrugSectionsAux, h] at hs
        exact ih start s hs
      | some content =>
        rw [buildDrugSectionsAux, h] at hs
        by_cases hc : content = ""
        · simp [hc] at hs
          exact ih start s hs
        · simp [hc] at hs
          rcases hs with hs | hs
          · rw [hs]
          · exact ih (start + 1) s hs
  exact key sectionMappings 1

/-! ## Evaluation lemmas for the Orchestrator -/

theorem getEnhancedContent_hit (env : GatewayEnv) (drug : DrugLabel) (now : Nat)
    (c : Cache) (e : EnhancedDrugContent)
    (hhit : lookupContent c (contentKey drug) = some e) :
    getEnhancedContent env drug now c = (e, c) := by
  unfold getEnhancedContent
  rw [hhit]

theorem getEnhancedContent_miss_seoerr (env : GatewayEnv) (drug : DrugLabel)
    (now : Nat) (c : Cache)
    (hmiss : lookupContent c (contentKey drug) = none) (e : GwErr)
    (hseo : (generateSEOMetadata env drug c).result = Except.error e) :
    getEnhancedContent env drug now c
      = (fallbackEnhancedContent drug now, (generateSEOMetadata env drug c).state) := by
  unfold getEnhancedContent
  simp only [hmiss]
  rw [hseo]

theorem getEnhancedContent_miss_sumerr (env : GatewayEnv) (drug : DrugLabel)
    (now : Nat) (c : Cache)
    (hmiss : lookupContent c (contentKey drug) = none) (m : SEOMetadata)
    (hseo : (generateSEOMetadata env drug c).result = Except.ok m) (e : GwErr)
    (hsum : (generateDrugSummary env drug
        (generateSEOMetadata env drug c).state).result = Except.error e) :
    getEnhancedContent env drug now c
      = (fallbackEnhancedContent drug now,
         (generateDrugSummary env drug (generateSEOMetadata env drug c).state).state) := by
  unfold getEnhancedContent
  simp only [hmiss]
  rw [hseo]
  rw [hsum]

/-- C1: on a cache miss, if enhanced-content generation raises after the
Model Gateway's retries are exhausted (the SEO-metadata or summary call
throws), `getEnhancedContent` returns the deterministic fallback object:
non-empty template `seoTitle`, `metaDescription` and `enhancedSummary`,
and `sections` equal to the Basic Content Assembler's output with no
`enhancedContent` populated; and the `enhanced_content:<id>` cache entry
is left exactly as it was (the fallback is not cached). -/
theorem getEnhancedContent_fallback_on_error (env : GatewayEnv)
    (drug : DrugLabel) (now : Nat) (c : Cache)
    (hmiss : lookupContent c (contentKey drug) = none)
    (herr : (∃ e, (generateSEOMetadata env drug c).result = Except.error e)
      ∨ (∃ e, (generateDrugSummary env drug
          (generateSEOMetadata env drug c).state).result = Except.error e)) :
    (getEnhancedContent env drug now c).1 = fallbackEnhancedContent drug now
    ∧ (getEnhancedContent env drug now c).1.seoTitle ≠ ""
    ∧ (getEnhancedContent env drug now c).1.metaDescription ≠ ""
    ∧ (getEnhancedContent env drug now c).1.enhancedSummary ≠ ""
    ∧ (getEnhancedContent env drug now c).1.sections = buildDrugSections drug
    ∧ (∀ s ∈ (getEnhancedContent env drug now c).1.sections,
        s.enhancedContent = none)
    ∧ cacheGet (getEnhancedContent env drug now c).2 (contentKey drug)
        = cacheGet c (contentKey drug) := by
  rcases hseo : (generateSEOMetadata env drug c).result with e | m
  · have heq := getEnhancedContent_miss_seoerr env drug now c hmiss e hseo
    rw [heq]
    refine ⟨rfl, ?_, ?_, ?_, rfl, ?_, ?_⟩
    · show drug.drugName ++ " (" ++ drug.label.genericName
        ++ ") - Drug Information" ≠ ""
      exact append_ne_empty_right _ _ (by decide)
    · show "Complete prescribing information for " ++ drug.drugName ++ " ("
        ++ drug.label.genericName ++ "). Indications, dosage, warnings, and more." ≠ ""
      exact append_ne_empty_right _ _ (by decide)
    · show drug.drugName ++ " is a prescription medication containing "
        ++ drug.label.genericName ++ "." ≠ ""
      exact append_ne_empty_right _ _ (by decide)
    · exact buildDrugSections_enhancedContent_none drug
    · exact generateSEOMetadata_frame env drug c _ (seoKey_ne_contentKey drug drug)
  · rcases hsum : (generateDrugSummary env drug
        (generateSEOMetadata env drug c).state).result with e | sm
    · have heq := getEnhancedContent_miss_sumerr env drug now c hmiss m hseo e hsum
      rw [heq]
      refine ⟨rfl, ?_, ?_, ?_, rfl, ?_, ?_⟩
      · show drug.drugName ++ " (" ++ drug.label.genericName
          ++ ") - Drug Information" ≠ ""
        exact append_ne_empty_right _ _ (by decide)
      · show "Complete prescribing information for " ++ drug.drugName ++ " ("
          ++ drug.label.genericName ++ "). Indications, dosage, warnings, and more." ≠ ""
        exact append_ne_empty_right _ _ (by decide)
      · show drug.drugName ++ " is a prescription medication containing "
          ++ drug.label.genericName ++ "." ≠ ""
        exact append_ne_empty_right _ _ (by decide)
      · exact buildDrugSections_enhancedContent_none drug
      · have h1 := generateDrugSummary_frame env drug
          (generateSEOMetadata env drug c).state _ (summaryKey_ne_contentKey drug drug)
        have h2 := generateSEOMetadata_frame env drug c _
          (seoKey_ne_contentKey drug drug)
        exact h1.trans h2
    · exfalso
      rcases herr with ⟨e, he⟩ | ⟨e, he⟩
      · rw [hseo] at he
        exact Except.noConfusion he
      · rw [hsum] at he
        exact Except.noConfusion he

/-- Witness for C1: with a provider failing every call and an empty
cache, `getEnhancedContent` returns the fallback and the
`enhanced_content` entry stays absent. -/
theorem getEnhancedContent_fallback_on_error_witness :
    (getEnhancedContent failEnv testDrug 0 []).1 = fallbackEnhancedContent testDrug 0
    ∧ cacheGet (getEnhancedContent failEnv testDrug 0 []).2 (contentKey testDrug)
        = cacheGet [] (contentKey testDrug) := by
  have hseo : (generateSEOMetadata failEnv testDrug []).result
      = Except.error connResetErr := by
    rw [generateSEOMetadata_miss failEnv testDrug [] rfl rfl,
        callOpenAIWithRetry_run]
    rfl
  have h := getEnhancedContent_fallback_on_error failEnv testDrug 0 [] rfl
    (Or.inl ⟨connResetErr, hseo⟩)
  exact ⟨h.1, h.2.2.2.2.2.2⟩

/-! ## Lemmas inverting the typed cache lookups -/

theorem lookupSeo_some (c : Cache) (k : String) (m : SEOMetadata)
    (h : lookupSeo c k = some m) : cacheGet c k = some (.seoMeta m) := by
  unfold lookupSeo at h
  rcases hg : cacheGet c k with _ | v
  · rw [hg] at h; exact Option.noConfusion h
  · rw [hg] at h
    cases v <;> simp_all

theorem lookupSummary_some (c : Cache) (k : String) (s : String)
    (h : lookupSummary c k = some s) : cacheGet c k = some (.summary s) := by
  unfold lookupSummary at h
  rcases hg : cacheGet c k with _ | v
  · rw [hg] at h; exact Option.noConfusion h
  · rw [hg] at h
    cases v with
    | summary s' =>
      by_cases he : s' = "" <;> simp_all
    | seoMeta m => exact Option.noConfusion h
    | sectionMap m => exact Option.noConfusion h
    | sectionList l => exact Option.noConfusion h
    | content e => exact Option.noConfusion h

theorem lookupSectionMap_some (c : Cache) (k : String) (m : List (String × String))
    (h : lookupSectionMap c k = some m) : cacheGet c k = some (.sectionMap m) := by
  unfold lookupSectionMap at h
  rcases hg : cacheGet c k with _ | v
  · rw [hg] at h; exact Option.noConfusion h
  · rw [hg] at h
    cases v <;> simp_all

/-! ## Inversion lemmas for the retried closures -/

theorem seoOp_ok_inv (env : GatewayEnv) (drug : DrugLabel) (a : Nat)
    (c₀ : Cache) (m : SEOMetadata) (st : Cache)
    (hop : seoOp env drug a c₀ = (Except.ok m, st)) :
    (m = getFallbackSEOMetadata drug ∧ st = c₀)
    ∨ (∃ response, env.provSeo a = Except.ok (some response)
        ∧ env.parseSEO response = some m
        ∧ st = cacheSet c₀ (seoKey drug) (.seoMeta m) 86400) := by
  unfold seoOp at hop
  rcases hp : env.provSeo a with e | r
  · rw [hp] at hop
    simp at hop
  · rcases r with _ | response
    · rw [hp] at hop
      simp at hop
    · rw [hp] at hop
      simp only at hop
      rcases hq : env.parseSEO response with _ | result
      · rw [hq] at hop
        simp at hop
        exact Or.inl ⟨hop.1.symm, hop.2.symm⟩
      · rw [hq] at hop
        simp at hop
        obtain ⟨h1, h2⟩ := hop
        subst h1
        exact Or.inr ⟨response, rfl, hq, h2.symm⟩

theorem summaryOp_ok_inv (env : GatewayEnv) (drug : DrugLabel) (a : Nat)
    (c₀ : Cache) (s : String) (st : Cache)
    (hop : summaryOp env drug a c₀ = (Except.ok s, st)) :
    st = cacheSet c₀ (summaryKey drug) (.summary s) 86400 := by
  unfold summaryOp at hop
  rcases hp : env.provSum a with e | r
  · rw [hp] at hop
    simp at hop
  · rw [hp] at hop
    simp at hop
    obtain ⟨h1, h2⟩ := hop
    subst h1
    exact h2.symm

theorem sectionsOp_ok_inv (env : GatewayEnv) (drug : DrugLabel) (a : Nat)
    (c₀ : Cache) (m : List (String × String)) (st : Cache)
    (hop : sectionsOp env drug a c₀ = (Except.ok m, st)) :
    ∃ t, env.provSec a = Except.ok t ∧ env.parseMap t = some m
      ∧ st = cacheSet c₀ (sectionsKey drug) (.sectionMap m) 86400 := by
  unfold sectionsOp at hop
  rcases hp : env.provSec a with e | t
  · rw [hp] at hop
    simp at hop
  · rw [hp] at hop
    simp only at hop
    rcases hq : env.parseMap t with _ | km
    · rw [hq] at hop
      simp at hop
    · rw [hq] at hop
      simp at hop
      obtain ⟨h1, h2⟩ := hop
      subst h1
      exact ⟨t, rfl, hq, h2.symm⟩

/-! ## C6: the section batch throws on exhausted retries -/

/-- Counterexample to C6: with a provider failing every attempt (and a
record with available sections), `enhanceAllSections` does not return an
empty map — it throws the final error to its caller. -/
theorem enhanceAllSections_throws_counterexample :
    (enhanceAllSections failEnv testDrug []).result = Except.error connResetErr
    ∧ (enhanceAllSections failEnv testDrug []).result ≠ Except.ok [] := by
  have heq : enhanceAllSections failEnv testDrug []
      = retryGo (sectionsOp failEnv testDrug) 2 1 [] := by
    rw [enhanceAllSections_miss failEnv testDrug [] rfl rfl (by decide),
        callOpenAIWithRetry_run]
  rw [heq]
  have h1 : (retryGo (sectionsOp failEnv testDrug) 2 1 ([] : Cache)).result
      = Except.error connResetErr := rfl
  rw [h1]
  exact ⟨rfl, fun hcontra => Except.noConfusion hcontra⟩

/-- C6 (amended): `enhanceAllSections` returns the empty map when the
provider is unconfigured or no sections are available; when the provider
honors the schema contract, any successful result covers exactly the
requested keys; but on a failure that survives the retries the method
throws the error to its caller (never returning a partial map), and the
calling `enhanceAllSectionsAtOnce` catches it and falls back to the
unenhanced section list. -/
theorem enhanceAllSections_failure_contract (env : GatewayEnv)
    (drug : DrugLabel) (c : Cache) (sections : List DrugSection) :
    (env.hasKey = false → enhanceAllSections env drug c = ⟨Except.ok [], c, 0, []⟩)
    ∧ (env.hasKey = true → lookupSectionMap c (sectionsKey drug) = none →
        (availableSectionKeys drug).isEmpty = true →
        enhanceAllSections env drug c = ⟨Except.ok [], c, 0, []⟩)
    ∧ (∀ m, env.hasKey = true → lookupSectionMap c (sectionsKey drug) = none →
        (availableSectionKeys drug).isEmpty = false →
        (∀ t km, env.parseMap t = some km →
          km.map Prod.fst = availableSectionKeys drug) →
        (enhanceAllSections env drug c).result = Except.ok m →
        m.map Prod.fst = availableSectionKeys drug)
    ∧ (∀ e, (enhanceAllSections env drug c).result = Except.error e →
        lookupSectionList c (allSectionsKey drug) = none →
        enhanceAllSectionsAtOnce env sections drug c
          = (sections, (enhanceAllSections env drug c).state)) := by
  refine ⟨?_, ?_, ?_, ?_⟩
  · intro hk
    exact enhanceAllSections_noKey env drug c hk
  · intro hk hmiss hempty
    exact enhanceAllSections_emptyKeys env drug c hk hmiss hempty
  · intro m hk hmiss hne hschema hok
    rw [enhanceAllSections_miss env drug c hk hmiss hne,
        callOpenAIWithRetry_run] at hok
    obtain ⟨a, s₀, hop⟩ := retryGo_ok_state (sectionsOp env drug) 2 1 c m hok
    obtain ⟨t, hp, hq, hst⟩ := sectionsOp_ok_inv env drug a s₀ m _ hop
    exact hschema t m hq
  · intro e herr hlist
    unfold enhanceAllSectionsAtOnce
    simp only [hlist]
    rw [herr]

/-- Witness for the amended C6: the always-failing provider makes the
batch throw, and the orchestrator's caller falls back to the unenhanced
section list with the cache state of the failed run. -/
theorem enhanceAllSections_failure_contract_witness :
    enhanceAllSectionsAtOnce failEnv (buildDrugSections testDrug) testDrug []
      = (buildDrugSections testDrug,
         (enhanceAllSections failEnv testDrug []).state) := by
  have herr : (enhanceAllSections failEnv testDrug []).result
      = Except.error connResetErr := by
    rw [enhanceAllSections_miss failEnv testDrug [] rfl rfl (by decide),
        callOpenAIWithRetry_run]
    rfl
  exact (enhanceAllSections_failure_contract failEnv testDrug []
    (buildDrugSections testDrug)).2.2.2 connResetErr herr rfl

/-! ## C7: parse failures retry in the section batch -/

/-- Counterexample to C7: in `enhanceAllSections` an unparseable provider
response is retried like any other error — three attempts, two 500ms
delays — and then thrown, rather than being replaced by the deterministic
fallback with no retry. -/
theorem parse_failure_retries_counterexample :
    (enhanceAllSections badJsonEnv testDrug []).attempts = 3
    ∧ (enhanceAllSections badJsonEnv testDrug []).delays = [500, 500]
    ∧ (enhanceAllSections badJsonEnv testDrug []).result = Except.error parseFailErr := by
  have heq : enhanceAllSections badJsonEnv testDrug []
      = retryGo (sectionsOp badJsonEnv testDrug) 2 1 [] := by
    rw [enhanceAllSections_miss badJsonEnv testDrug [] rfl rfl (by decide),
        callOpenAIWithRetry_run]
  rw [heq]
  exact ⟨rfl, rfl, rfl⟩

/-- C7 (amended): `generateSEOMetadata` substitutes its deterministic
fallback immediately on a parse failure — a single attempt, no delay, no
retry, nothing cached; but `enhanceAllSections` treats an unparseable
response as a failed attempt: it is retried like any other error (500ms
delays) and thrown after the final attempt. -/
theorem parse_failure_handling :
    (∀ (env : GatewayEnv) (drug : DrugLabel) (c : Cache) (response : String),
      env.hasKey = true →
      lookupSeo c (seoKey drug) = none →
      env.provSeo 1 = Except.ok (some response) →
      env.parseSEO response = none →
      generateSEOMetadata env drug c
        = ⟨Except.ok (getFallbackSEOMetadata drug), c, 1, []⟩)
    ∧ (∀ (env : GatewayEnv) (drug : DrugLabel) (c : Cache),
        env.hasKey = true →
        lookupSectionMap c (sectionsKey drug) = none →
        (availableSectionKeys drug).isEmpty = false →
        (∀ a, ∃ t, env.provSec a = Except.ok t ∧ env.parseMap t = none) →
        (enhanceAllSections env drug c).attempts = 3
        ∧ (enhanceAllSections env drug c).delays = [500, 500]
        ∧ (enhanceAllSections env drug c).result = Except.error parseFailErr) := by
  constructor
  · intro env drug c response hk hmiss hprov hparse
    rw [generateSEOMetadata_miss env drug c hk hmiss, callOpenAIWithRetry_run]
    have hop : seoOp env drug 1 c = (Except.ok (getFallbackSEOMetadata drug), c) := by
      unfold seoOp
      rw [hprov]
      simp only
      rw [hparse]
    rw [retryGo_ok_eq 2 hop]
  · intro env drug c hk hmiss hne hall
    have hop : ∀ (a : Nat) (c' : Cache),
        sectionsOp env drug a c' = (Except.error parseFailErr, c') := by
      intro a c'
      obtain ⟨t, hp, hq⟩ := hall a
      unfold sectionsOp
      rw [hp]
      simp only
      rw [hq]
    rw [enhanceAllSections_miss env drug c hk hmiss hne, callOpenAIWithRetry_run,
        retryGo_err_succ 1 (hop 1 c), retryGo_err_succ 0 (hop 2 c),
        retryGo_err_zero (hop 3 c)]
    refine ⟨rfl, ?_, rfl⟩
    simp [retryDelay, parseFailErr]

/-- Witness for the amended C7: a provider answering unparseable content
shows the SEO path falling back in one attempt while the section batch
retries to exhaustion. -/
theorem parse_failure_handling_witness :
    generateSEOMetadata badJsonEnv testDrug []
      = ⟨Except.ok (getFallbackSEOMetadata testDrug), [], 1, []⟩
    ∧ (enhanceAllSections badJsonEnv testDrug []).attempts = 3 := by
  constructor
  · exact parse_failure_handling.1 badJsonEnv testDrug [] "not json" rfl rfl rfl rfl
  · exact (parse_failure_handling.2 badJsonEnv testDrug [] rfl rfl (by decide)
      (fun a => ⟨"not json", rfl, rfl⟩)).1

/-! ## C8: the Gateway reads the cache itself -/

/-- Counterexample to C8: `generateSEOMetadata` consults the Content
Cache before generating — with the `seo_metadata` entry preloaded it
returns the cached value with zero provider calls, while the same call
on an empty cache reaches the (failing) provider; so the Gateway does
read the cache, and its output depends on the cache contents. -/
theorem gateway_reads_cache_counterexample :
    (generateSEOMetadata failEnv testDrug seoPreCache).result
        = Except.ok cachedSeoFixture
    ∧ (generateSEOMetadata failEnv testDrug seoPreCache).attempts = 0
    ∧ (generateSEOMetadata failEnv testDrug []).result = Except.error connResetErr := by
  refine ⟨?_, ?_, ?_⟩
  · rw [generateSEOMetadata_hit failEnv testDrug seoPreCache cachedSeoFixture rfl rfl]
  · rw [generateSEOMetadata_hit failEnv testDrug seoPreCache cachedSeoFixture rfl rfl]
  · rw [generateSEOMetadata_miss failEnv testDrug [] rfl rfl,
        callOpenAIWithRetry_run]
    rfl

/-- C8 (amended): each Gateway operation itself consults its namespace
key in the Content Cache — a hit is served with zero provider calls —
and each successfully parsed generation is written to the cache under
its namespace key before being returned (the SEO parse-failure fallback
is returned uncached; the Orchestrator's `enhanced_content:<id>` check
is additional, not exclusive). -/
theorem gateway_cache_discipline (env : GatewayEnv) (drug : DrugLabel)
    (c : Cache) :
    (∀ m, env.hasKey = true → lookupSeo c (seoKey drug) = some m →
      generateSEOMetadata env drug c = ⟨Except.ok m, c, 0, []⟩)
    ∧ (∀ s, env.hasKey = true → lookupSummary c (summaryKey drug) = some s →
        generateDrugSummary env drug c = ⟨Except.ok s, c, 0, []⟩)
    ∧ (∀ m, env.hasKey = true → lookupSectionMap c (sectionsKey drug) = some m →
        enhanceAllSections env drug c = ⟨Except.ok m, c, 0, []⟩)
    ∧ (∀ m, (generateSEOMetadata env drug c).result = Except.ok m →
        m ≠ getFallbackSEOMetadata drug →
        cacheGet (generateSEOMetadata env drug c).state (seoKey drug)
          = some (.seoMeta m))
    ∧ (∀ s, env.hasKey = true →
        (generateDrugSummary env drug c).result = Except.ok s →
        cacheGet (generateDrugSummary env drug c).state (summaryKey drug)
          = some (.summary s))
    ∧ (∀ m, (enhanceAllSections env drug c).result = Except.ok m → m ≠ [] →
        cacheGet (enhanceAllSections env drug c).state (sectionsKey drug)
          = some (.sectionMap m)) := by
  refine ⟨?_, ?_, ?_, ?_, ?_, ?_⟩
  · intro m hk hhit; exact generateSEOMetadata_hit env drug c m hk hhit
  · intro s hk hhit; exact generateDrugSummary_hit env drug c s hk hhit
  · intro m hk hhit; exact enhanceAllSections_hit env drug c m hk hhit
  · intro m hok hne
    cases hk : env.hasKey with
    | false =>
      rw [generateSEOMetadata_noKey env drug c hk] at hok
      simp at hok
      exact absurd hok.symm hne
    | true =>
      rcases hhit : lookupSeo c (seoKey drug) with _ | m'
      · rw [generateSEOMetadata_miss env drug c hk hhit,
            callOpenAIWithRetry_run] at hok ⊢
        obtain ⟨a, s₀, hop⟩ := retryGo_ok_state (seoOp env drug) 2 1 c m hok
        rcases seoOp_ok_inv env drug a s₀ m _ hop with ⟨hm, _⟩ | ⟨resp, _, _, hst⟩
        · exact absurd hm hne
        · rw [hst, cacheGet_set]
          simp
      · rw [generateSEOMetadata_hit env drug c m' hk hhit] at hok ⊢
        simp at hok
        rw [hok] at hhit
        exact lookupSeo_some c (seoKey drug) m hhit
  · intro s hk hok
    rcases hhit : lookupSummary c (summaryKey drug) with _ | s'
    · rw [generateDrugSummary_miss env drug c hk hhit,
          callOpenAIWithRetry_run] at hok ⊢
      obtain ⟨a, s₀, hop⟩ := retryGo_ok_state (summaryOp env drug) 2 1 c s hok
      have hst := summaryOp_ok_inv env drug a s₀ s _ hop
      rw [hst, cacheGet_set]
      simp
    · rw [generateDrugSummary_hit env drug c s' hk hhit] at hok ⊢
      simp at hok
      rw [hok] at hhit
      exact lookupSummary_some c (summaryKey drug) s hhit
  · intro m hok hne
    cases hk : env.hasKey with
    | false =>
      rw [enhanceAllSections_noKey env drug c hk] at hok
      simp at hok
      exact absurd hok hne
    | true =>
      rcases hhit : lookupSectionMap c (sectionsKey drug) with _ | m'
      · cases hav : (availableSectionKeys drug).isEmpty with
        | true =>
          rw [enhanceAllSections_emptyKeys env drug c hk hhit hav] at hok
          simp at hok
          exact absurd hok hne
        | false =>
          rw [enhanceAllSections_miss env drug c hk hhit hav,
              callOpenAIWithRetry_run] at hok ⊢
          obtain ⟨a, s₀, hop⟩ := retryGo_ok_state (sectionsOp env drug) 2 1 c m hok
          obtain ⟨t, _, _, hst⟩ := sectionsOp_ok_inv env drug a s₀ m _ hop
          rw [hst, cacheGet_set]
          simp
      · rw [enhanceAllSections_hit env drug c m' hk hhit] at hok ⊢
        simp at hok
        rw [hok] at hhit
        exact lookupSectionMap_some c (sectionsKey drug) m hhit

/-- Witness for the amended C8: the preloaded `seo_metadata` entry is
served from cache with zero provider calls. -/
theorem gateway_cache_discipline_witness :
    generateSEOMetadata failEnv testDrug seoPreCache
      = ⟨Except.ok cachedSeoFixture, seoPreCache, 0, []⟩ :=
  (gateway_cache_discipline failEnv testDrug seoPreCache).1 cachedSeoFixture rfl rfl

/-! ## Evaluation lemmas for the Tool Protocol Adapter -/

theorem handleRequest_unknown (env : McpEnv) (req : McpRequest) (c : Cache)
    (h : recognizedMethod req.method = false) :
    handleRequest env req c
      = (Except.ok { id := idOrNull req.id, result := none,
                     error :=
                       some { code := -32601,
                              message := "Method not found: " ++ req.method } }, c) := by
  obtain ⟨method, params, id⟩ := req
  unfold handleRequest
  split <;> simp_all [recognizedMethod]

theorem handleRequest_toolsList (env : McpEnv) (req : McpRequest) (c : Cache)
    (h : req.method = "tools/list") :
    handleRequest env req c
      = (Except.ok { id := idCoalesce req.id,
                     result := some (.toolsList toolCatalog), error := none }, c) := by
  obtain ⟨method, params, id⟩ := req
  subst h
  rfl

theorem handleRequest_init (env : McpEnv) (req : McpRequest) (c : Cache)
    (h : req.method = "initialize") :
    handleRequest env req c
      = (Except.ok { id := idCoalesce req.id,
                     result := some (.initResult "2024-11-05" "rxview-drug-server" "1.0.0"),
                     error := none }, c) := by
  obtain ⟨method, params, id⟩ := req
  subst h
  rfl

theorem handleRequest_toolsCall (env : McpEnv) (req : McpRequest) (c : Cache)
    (h : req.method = "tools/call") :
    handleRequest env req c = callTool env (idCoalesce req.id) req.params c := by
  obtain ⟨method, params, id⟩ := req
  subst h
  rfl

/-- Whatever a dispatched tool does, `callTool` with present params
produces exactly one ok response carrying the given id. -/
theorem callTool_some_id (env : McpEnv) (id : Option JsonId) (tc : McpToolCall)
    (c : Cache) :
    ∃ resp, (callTool env id (some tc) c).1 = Except.ok resp ∧ resp.id = id := by
  rcases h : executeTool env tc c with ⟨r, c'⟩
  cases r with
  | ok result =>
    refine ⟨{ id := id, result := some (.tool result), error := none }, ?_, rfl⟩
    simp [callTool, h]
  | error msg =>
    refine ⟨{ id := id,
              result := some (.tool
                { content := [.text ("Error executing tool: " ++ msg)],
                  isError := some true }),
              error := none }, ?_, rfl⟩
    simp [callTool, h]

/-- Every ok response of `handleRequest` carries either the coalesced id
(recognized methods) or the falsy-coerced id (unknown methods). -/
theorem handleRequest_ok_id (env : McpEnv) (req : McpRequest) (c : Cache)
    (resp : McpResponse)
    (hresp : (handleRequest env req c).1 = Except.ok resp) :
    resp.id = idCoalesce req.id
    ∨ (recognizedMethod req.method = false ∧ resp.id = idOrNull req.id) := by
  by_cases h1 : req.method = "tools/list"
  · left
    rw [handleRequest_toolsList env req c h1] at hresp
    simp at hresp
    rw [← hresp]
  · by_cases h2 : req.method = "initialize"
    · left
      rw [handleRequest_init env req c h2] at hresp
      simp at hresp
      rw [← hresp]
    · by_cases h3 : req.method = "tools/call"
      · left
        rw [handleRequest_toolsCall env req c h3] at hresp
        rcases hp : req.params with _ | tc
        · rw [hp] at hresp
          simp [callTool] at hresp
        · rw [hp] at hresp
          obtain ⟨resp2, hr, hid⟩ := callTool_some_id env (idCoalesce req.id) tc c
          rw [hr] at hresp
          simp at hresp
          rw [← hresp, hid]
      · right
        have hm : recognizedMethod req.method = false := by
          simp [recognizedMethod, h1, h2, h3]
        rw [handleRequest_unknown env req c hm] at hresp
        simp at hresp
        exact ⟨hm, by rw [← hresp]⟩

/-! ## C3: protocol envelope and id echo -/

/-- Counterexample to C3: the unknown-method branch computes
`request.id || null`, so a supplied id of `0` is not echoed — the
response id is `null`. -/
theorem handleRequest_id_zero_counterexample :
    (handleRequest mcpTestEnv
        { method := "nonexistent", params := none, id := some (some (.num 0)) }
        []).1
      = Except.ok { id := none, result := none,
                    error :=
                      some { code := -32601,
                             message := "Method not found: nonexistent" } }
    ∧ (none : Option JsonId) ≠ some (JsonId.num 0) := by
  constructor
  · decide
  · decide

/-- C3 (amended): every well-formed request yields exactly one response;
an unrecognized method yields an error object with code -32601 and no
result field, leaving the cache untouched; the response id echoes a
supplied id and is null when the id was absent or null — except that the
unknown-method branch coerces a falsy supplied id (number 0 or empty
string) to null. -/
theorem handleRequest_envelope (env : McpEnv) (req : McpRequest) (c : Cache) :
    (recognizedMethod req.method = false →
      handleRequest env req c
        = (Except.ok { id := idOrNull req.id, result := none,
                       error :=
                         some { code := -32601,
                                message := "Method not found: " ++ req.method } }, c))
    ∧ (∀ v, req.id = some (some v) → v.truthy = true →
        ∀ resp, (handleRequest env req c).1 = Except.ok resp → resp.id = some v)
    ∧ ((req.id = none ∨ req.id = some none) →
        ∀ resp, (handleRequest env req c).1 = Except.ok resp → resp.id = none)
    ∧ (recognizedMethod req.method = true → req.method ≠ "tools/call" →
        ∃ resp, handleRequest env req c = (Except.ok resp, c)
          ∧ resp.id = idCoalesce req.id)
    ∧ (req.method = "tools/call" → ∀ tc, req.params = some tc →
        ∃ resp, (handleRequest env req c).1 = Except.ok resp
          ∧ resp.id = idCoalesce req.id) := by
  refine ⟨?_, ?_, ?_, ?_, ?_⟩
  · intro h
    exact handleRequest_unknown env req c h
  · intro v hid htruthy resp hresp
    rcases handleRequest_ok_id env req c resp hresp with h | ⟨_, h⟩
    · rw [h, hid]
      rfl
    · rw [h, hid]
      simp [idOrNull, htruthy]
  · intro hid resp hresp
    rcases handleRequest_ok_id env req c resp hresp with h | ⟨_, h⟩ <;>
      rcases hid with h0 | h0 <;> rw [h, h0] <;> rfl
  · intro hrec hne
    rcases (by simpa [recognizedMethod] using hrec :
        (req.method = "tools/list" ∨ req.method = "tools/call")
          ∨ req.method = "initialize") with (h | h) | h
    · exact ⟨_, handleRequest_toolsList env req c h, rfl⟩
    · exact absurd h hne
    · exact ⟨_, handleRequest_init env req c h, rfl⟩
  · intro h tc hp
    rw [handleRequest_toolsCall env req c h, hp]
    exact callTool_some_id env (idCoalesce req.id) tc c

/-- Witness for the amended C3: an unknown method with a truthy id gets
exactly one -32601 error response echoing the id. -/
theorem handleRequest_envelope_witness :
    handleRequest mcpTestEnv
        { method := "ping", params := none, id := some (some (.num 7)) } []
      = (Except.ok { id := some (.num 7), result := none,
                     error :=
                       some { code := -32601,
                              message := "Method not found: ping" } }, []) := by
  have h := (handleRequest_envelope mcpTestEnv
    { method := "ping", params := none, id := some (some (.num 7)) } []).1
    (by decide)
  rw [h]
  decide

/-! ## Evaluation lemmas for the tool dispatch -/

theorem executeTool_drug (env : McpEnv) (args : ToolArgs) (c : Cache) :
    executeTool env { name := "get_drug_by_name", arguments := args } c
      = getDrugByNameTool env args c := rfl

theorem executeTool_sections (env : McpEnv) (args : ToolArgs) (c : Cache) :
    executeTool env { name := "get_enhanced_sections", arguments := args } c
      = getEnhancedSectionsTool env args c := rfl

theorem executeTool_search (env : McpEnv) (args : ToolArgs) (c : Cache) :
    executeTool env { name := "search_drugs", arguments := args } c
      = (Except.ok (searchDrugsTool env args), c) := rfl

theorem executeTool_unknown (env : McpEnv) (args : ToolArgs) (c : Cache)
    (name : String) (h : name ∉ registeredToolNames) :
    executeTool env { name := name, arguments := args } c
      = (Except.error ("Unknown tool: " ++ name), c) := by
  simp [registeredToolNames] at h
  unfold executeTool
  split <;> simp_all

theorem getDrugByNameTool_notfound (env : McpEnv) (args : ToolArgs) (c : Cache)
    (dn : String) (hdn : args.drugName = some dn)
    (hnone : getDrugByNames env.drugs dn args.genericName = none) :
    getDrugByNameTool env args c
      = (Except.ok { content := [.text ("Drug not found: "
            ++ searchTermOf dn args.genericName)], isError := some true }, c) := by
  rcases hg : args.genericName with _ | g
  · rw [hg] at hnone
    simp [getDrugByNameTool, hdn, hg, hnone, searchTermOf]
  · rw [hg] at hnone
    simp [getDrugByNameTool, hdn, hg, hnone, searchTermOf]

theorem getEnhancedSectionsTool_notfound (env : McpEnv) (args : ToolArgs)
    (c : Cache) (dn : String) (hdn : args.drugName = some dn)
    (hnone : getDrugByNames env.drugs dn args.genericName = none) :
    getEnhancedSectionsTool env args c
      = (Except.ok { content := [.text ("Drug not found: "
            ++ searchTermOf dn args.genericName)], isError := some true }, c) := by
  rcases hg : args.genericName with _ | g
  · rw [hg] at hnone
    simp [getEnhancedSectionsTool, hdn, hg, hnone, searchTermOf]
  · rw [hg] at hnone
    simp [getEnhancedSectionsTool, hdn, hg, hnone, searchTermOf]

theorem callTool_ok (env : McpEnv) (id : Option JsonId) (tc : McpToolCall)
    (c : Cache) (r : McpToolResult) (c2 : Cache)
    (h : executeTool env tc c = (Except.ok r, c2)) :
    callTool env id (some tc) c
      = (Except.ok { id := id, result := some (.tool r), error := none }, c2) := by
  simp [callTool, h]

theorem callTool_thrown (env : McpEnv) (id : Option JsonId) (tc : McpToolCall)
    (c : Cache) (msg : Thrown) (c2 : Cache)
    (h : executeTool env tc c = (Except.error msg, c2)) :
    callTool env id (some tc) c
      = (Except.ok
          { id := id,
            result := some (.tool
              { content := [.text ("Error executing tool: " ++ msg)],
                isError := some true }),
            error := none }, c2) := by
  simp [callTool, h]

theorem isInfix_append_right {α : Type} {l a : List α} (b : List α)
    (h : l <:+: a) : l <:+: a ++ b := by
  obtain ⟨s, t, rfl⟩ := h
  exact ⟨s, t ++ b, by simp⟩

/-! ## C4: tool-level error convention -/

/-- C4: a `tools/call` of `get_drug_by_name` or `get_enhanced_sections`
whose name resolves to no record returns a result (not a protocol error)
with `isError: true` and a human-readable not-found text; a `tools/call`
with an unregistered tool name likewise returns a result with
`isError: true` whose text contains "Unknown tool". -/
theorem toolcall_error_convention (env : McpEnv) (id : Option JsonId)
    (args : ToolArgs) (dn : String) (c : Cache) :
    (args.drugName = some dn →
      getDrugByNames env.drugs dn args.genericName = none →
      ∀ name, (name = "get_drug_by_name" ∨ name = "get_enhanced_sections") →
        callTool env id (some { name := name, arguments := args }) c
          = (Except.ok
              { id := id,
                result := some (.tool
                  { content := [.text ("Drug not found: "
                      ++ searchTermOf dn args.genericName)],
                    isError := some true }),
                error := none }, c))
    ∧ (∀ name, name ∉ registeredToolNames →
        callTool env id (some { name := name, arguments := args }) c
          = (Except.ok
              { id := id,
                result := some (.tool
                  { content := [.text ("Error executing tool: "
                      ++ ("Unknown tool: " ++ name))],
                    isError := some true }),
                error := none }, c)
        ∧ jsIncludes ("Error executing tool: " ++ ("Unknown tool: " ++ name))
            "Unknown tool" = true) := by
  constructor
  · intro hdn hnone name hname
    rcases hname with h | h <;> subst h
    · exact callTool_ok env id _ c _ c
        ((executeTool_drug env args c).trans
          (getDrugByNameTool_notfound env args c dn hdn hnone))
    · exact callTool_ok env id _ c _ c
        ((executeTool_sections env args c).trans
          (getEnhancedSectionsTool_notfound env args c dn hdn hnone))
  · intro name hname
    refine ⟨callTool_thrown env id _ c _ c
      (executeTool_unknown env args c name hname), ?_⟩
    unfold jsIncludes
    apply decide_eq_true
    have h1 : "Unknown tool".toList
        <:+: "Error executing tool: ".toList ++ "Unknown tool: ".toList := by
      decide
    have h2 : ("Error executing tool: " ++ ("Unknown tool: " ++ name)).toList
        = ("Error executing tool: ".toList ++ "Unknown tool: ".toList)
          ++ name.toList := by
      simp [String.toList, String.data_append]
    rw [h2]
    exact isInfix_append_right _ h1

/-- Witness for C4: looking up an unrecorded drug yields the
`isError: true` not-found result. -/
theorem toolcall_error_convention_witness :
    callTool mcpTestEnv (some (.num 1))
        (some { name := "get_drug_by_name", arguments := notFoundArgs }) []
      = (Except.ok
          { id := some (.num 1),
            result := some (.tool
              { content := [.text "Drug not found: nosuchdrug"],
                isError := some true }),
            error := none }, []) := by
  have h := (toolcall_error_convention mcpTestEnv (some (.num 1)) notFoundArgs
    "nosuchdrug" []).1 rfl (by decide) "get_drug_by_name" (Or.inl rfl)
  rw [h]
  decide

/-! ## C9: enhanced-section filtering -/

/-- C9: for a resolvable record, `get_enhanced_sections` returns exactly
the subset of the computed content's sections whose `enhancedContent` is
present (the computed content never stores an empty-string enhancement,
stated here as the hypothesis `hwf`), each rendered as
(title, originalContent, enhancedContent). -/
theorem get_enhanced_sections_filtering (env : McpEnv) (args : ToolArgs)
    (dn : String) (drug : DrugLabel) (c : Cache)
    (hdn : args.drugName = some dn)
    (hfound : getDrugByNames env.drugs dn args.genericName = some drug)
    (hwf : ∀ s ∈ (getEnhancedContent env.gw drug env.now c).1.sections,
      s.enhancedContent ≠ some "") :
    getEnhancedSectionsTool env args c
      = (Except.ok
          { content := [.sectionsJson
              (getEnhancedContent env.gw drug env.now c).1.drugName
              (getEnhancedContent env.gw drug env.now c).1.genericName
              (((getEnhancedContent env.gw drug env.now c).1.sections.filter
                  (fun s => s.enhancedContent.isSome)).map
                (fun s => (s.title, s.content, s.enhancedContent.getD "")))],
            isError := none },
         (getEnhancedContent env.gw drug env.now c).2) := by
  have hfilter : (getEnhancedContent env.gw drug env.now c).1.sections.filter
        enhancedTruthy
      = (getEnhancedContent env.gw drug env.now c).1.sections.filter
          (fun s => s.enhancedContent.isSome) := by
    apply List.filter_congr
    intro s hs
    have hw := hwf s hs
    rcases hsec : s.enhancedContent with _ | v
    · simp [enhancedTruthy, hsec]
    · rw [hsec] at hw
      have hv : v ≠ "" := fun h => hw (by rw [h])
      simp [enhancedTruthy, hsec, hv]
  simp only [getEnhancedSectionsTool, hdn, hfound]
  rw [hfilter]

/-- Witness for C9: with cached content whose five sections carry two
enhancements, exactly those two come back, rendered with title, original
and enhanced prose. -/
theorem get_enhanced_sections_filtering_witness :
    getEnhancedSectionsTool mcpTestEnv aspirinArgs mixedCache
      = (Except.ok
          { content := [.sectionsJson "Aspirin" "acetylsalicylic-acid"
              [("Indications and Usage", "c1", "e1"),
               ("Warnings and Precautions", "c3", "e3")]],
            isError := none },
         mixedCache) := by
  have h := get_enhanced_sections_filtering mcpTestEnv aspirinArgs "aspirin"
    testDrug mixedCache rfl (by decide) (by decide)
  rw [h]
  decide

/-! ## C10: by-name lookup characterization -/

/-- `List.find?` returns the first match: the found element satisfies the
predicate and everything before it does not. -/
theorem find?_first {α : Type} (p : α → Bool) :
    ∀ (l : List α) (a : α), l.find? p = some a →
      p a = true ∧ ∃ pre post, l = pre ++ a :: post ∧ ∀ x ∈ pre, p x = false := by
  intro l
  induction l with
  | nil => intro a h; simp at h
  | cons b rest ih =>
    intro a h
    cases hb : p b with
    | true =>
      rw [List.find?_cons_of_pos _ hb] at h
      have hba : b = a := by simpa using h
      subst hba
      exact ⟨hb, [], rest, rfl, by simp⟩
    | false =>
      rw [List.find?_cons_of_neg _ (by rw [hb]; exact Bool.false_ne_true)] at h
      obtain ⟨hpa, pre, post, heq, hpre⟩ := ih a h
      refine ⟨hpa, b :: pre, post, by rw [heq]; rfl, ?_⟩
      intro x hx
      rcases List.mem_cons.mp hx with hxb | hxpre
      · rw [hxb]; exact hb
      · exact hpre x hxpre

/-- C10: `getDrugByNames` without a generic name returns the first record
whose normalized brand OR normalized generic name equals the normalized
argument; with a generic name, the first whose normalized brand matches
AND whose lowercased (hyphens untouched) generic name equals the
lowercased argument; and `null` exactly when no record matches. -/
theorem getDrugByNames_characterization (drugs : List DrugLabel) (n : String) :
    (∀ d, getDrugByNames drugs n none = some d →
      matchesNoGeneric n d
      ∧ ∃ pre post, drugs = pre ++ d :: post
          ∧ ∀ x ∈ pre, ¬ matchesNoGeneric n x)
    ∧ (getDrugByNames drugs n none = none ↔ ∀ d ∈ drugs, ¬ matchesNoGeneric n d)
    ∧ (∀ g d, getDrugByNames drugs n (some g) = some d →
      matchesWithGeneric n g d
      ∧ ∃ pre post, drugs = pre ++ d :: post
          ∧ ∀ x ∈ pre, ¬ matchesWithGeneric n g x)
    ∧ (∀ g, getDrugByNames drugs n (some g) = none
        ↔ ∀ d ∈ drugs, ¬ matchesWithGeneric n g d) := by
  have hno : getDrugByNames drugs n none
      = drugs.find? (fun drug =>
          normalizeDrugName drug.drugName == normalizeDrugName n
          || normalizeDrugName drug.label.genericName == normalizeDrugName n) := rfl
  have hg : ∀ g, getDrugByNames drugs n (some g)
      = drugs.find? (fun drug =>
          normalizeDrugName drug.drugName == normalizeDrugName n
          && jsToLower drug.label.genericName == jsToLower g) := fun g => rfl
  have pno : ∀ d, (normalizeDrugName d.drugName == normalizeDrugName n
      || normalizeDrugName d.label.genericName == normalizeDrugName n) = true
      ↔ matchesNoGeneric n d := by
    intro d
    simp [matchesNoGeneric]
  have pg : ∀ g d, (normalizeDrugName d.drugName == normalizeDrugName n
      && jsToLower d.label.genericName == jsToLower g) = true
      ↔ matchesWithGeneric n g d := by
    intro g d
    simp [matchesWithGeneric]
  refine ⟨?_, ?_, ?_, ?_⟩
  · intro d h
    rw [hno] at h
    obtain ⟨hp, pre, post, heq, hpre⟩ := find?_first _ drugs d h
    refine ⟨(pno d).mp hp, pre, post, heq, ?_⟩
    intro x hx hm
    have hfx := hpre x hx
    rw [(pno x).mpr hm] at hfx
    exact Bool.noConfusion hfx
  · rw [hno, List.find?_eq_none]
    constructor
    · intro h d hd hm
      exact h d hd ((pno d).mpr hm)
    · intro h d hd hp
      exact h d hd ((pno d).mp hp)
  · intro g d h
    rw [hg g] at h
    obtain ⟨hp, pre, post, heq, hpre⟩ := find?_first _ drugs d h
    refine ⟨(pg g d).mp hp, pre, post, heq, ?_⟩
    intro x hx hm
    have hfx := hpre x hx
    rw [(pg g x).mpr hm] at hfx
    exact Bool.noConfusion hfx
  · intro g
    rw [hg g, List.find?_eq_none]
    constructor
    · intro h d hd hm
      exact h d hd ((pg g d).mpr hm)
    · intro h d hd hp
      exact h d hd ((pg g d).mp hp)

/-- Witness for C10: the lowercased brand name "aspirin" resolves
`testDrug`, which indeed matches the no-generic predicate. -/
theorem getDrugByNames_characterization_witness :
    getDrugByNames [testDrug] "aspirin" none = some testDrug
    ∧ matchesNoGeneric "aspirin" testDrug := by
  have h1 : getDrugByNames [testDrug] "aspirin" none = some testDrug := by decide
  exact ⟨h1,
    ((getDrugByNames_characterization [testDrug] "aspirin").1 testDrug h1).1⟩

end RxView
